import Mathlib

/-!
# Verification of the expense-reimbursement lifecycle engine

Shallow embedding of the core of the `reembolso-despesas` repository:
the categorizer (`src/services/ml.js`), the OCR extraction pipeline
(`processReceiptOCR` and friends, shipped unnamed as `src/unnamed/part_000`),
the lifecycle route handlers (`src/routes/expenses.js`, `src/routes/admin.js`)
and the unique-constraint layout of `src/database/schema.sql`.

Modelling conventions:
* JavaScript numbers are `ℚ` (every constant in the code is an exact decimal);
* SQL timestamps are `Int` milliseconds;
* JS objects used as score maps are insertion-ordered association lists
  `List (String × ℚ)`;
* thrown JS exceptions are `Except`;
* the SQL tables form the `Db` record, each route handler is a function
  `Db → ... → Except AppErr Db` whose single `.ok` result models the
  route's one transaction (`transaction(async (client) => ...)`);
* JS regex/`Date`/`parseFloat` builtins used by the receipt parser are
  abstracted as the `JsPrims` parameter record.

String primitives are re-implemented on `List Char` (structural recursion)
so that concrete runs reduce inside the kernel.
-/

/-- Substring test on character lists: `containsSub n h` is true iff `n`
occurs contiguously inside `h`.  Models JavaScript `String.includes`. -/
def containsSub (needle : List Char) : List Char → Bool
  | [] => needle.isEmpty
  | c :: t => needle.isPrefixOf (c :: t) || containsSub needle t

/-- `strContains hay needle` models JavaScript `hay.includes(needle)`. -/
def strContains (hay needle : String) : Bool :=
  containsSub needle.toList hay.toList

/-- Lower-casing via `Char.toLower`, modelling JS `String.toLowerCase` on
the ASCII texts this code handles. -/
def strToLower (s : String) : String :=
  String.mk (s.toList.map Char.toLower)

/-- Strip leading and trailing whitespace from a character list, modelling
JS `String.trim` on the texts this code handles. -/
def trimChars (cs : List Char) : List Char :=
  ((cs.dropWhile Char.isWhitespace).reverse.dropWhile Char.isWhitespace).reverse

/-- Lookup in an insertion-ordered association list, modelling JS object
property read `m[k]` (keys are unique in a JS object, first binding wins). -/
def lookupScore : List (String × ℚ) → String → Option ℚ
  | [], _ => none
  | p :: ps, k => if p.1 = k then some p.2 else lookupScore ps k

/-- JS object property write `m[k] = v`: overwrite an existing binding in
place, or append the new key at the end (JS preserves insertion order). -/
def setScore : List (String × ℚ) → String → ℚ → List (String × ℚ)
  | [], k, v => [(k, v)]
  | p :: ps, k, v => if p.1 = k then (k, v) :: ps else p :: setScore ps k v

/-- `Object.keys(scores).reduce((a, b) => scores[a] > scores[b] ? a : b)`:
the JS arg-max reduce used in `ml.js`.  Note the strict `>`: on a tie the
reduce keeps the *later* key.  On `[]` the JS reduce would throw; every
call site passes a non-empty key list, and we return `""` there. -/
def argmaxKey (f : String → ℚ) : List String → String
  | [] => ""
  | k :: ks => ks.foldl (fun a b => if f a > f b then a else b) k

/-- Keyword table `categoryRules` from `src/services/ml.js` lines 9-42. -/
def categoryRules : List (String × List String) :=
  [("meals",
    ["restaurant", "food", "lunch", "dinner", "breakfast", "cafe", "coffee",
     "pizza", "burger", "sushi", "delivery", "takeout", "meal", "dining"]),
   ("transportation",
    ["uber", "lyft", "taxi", "bus", "train", "subway", "metro", "airline",
     "flight", "car rental", "parking", "toll", "gas", "fuel", "mileage"]),
   ("accommodation",
    ["hotel", "motel", "inn", "resort", "airbnb", "booking", "lodging",
     "accommodation", "stay", "room", "suite"]),
   ("office_supplies",
    ["staples", "office", "supplies", "paper", "pen", "pencil", "notebook",
     "folder", "binder", "printer", "ink", "toner", "desk", "chair"]),
   ("software",
    ["software", "app", "subscription", "license", "saas", "cloud", "microsoft",
     "adobe", "google", "zoom", "slack", "github", "aws", "digital"]),
   ("training",
    ["course", "training", "workshop", "seminar", "conference", "education",
     "learning", "certification", "udemy", "coursera", "book", "tutorial"]),
   ("marketing",
    ["advertising", "marketing", "promotion", "social media", "facebook",
     "google ads", "linkedin", "campaign", "branding", "design"]),
   ("travel",
    ["travel", "trip", "business trip", "visa", "passport", "insurance",
     "luggage", "baggage", "airport", "terminal"])]

/-- Result value of one categorization run (the spec's
`CategorizationOutcome`). -/
structure MlResult where
  category : String
  confidence : ℚ
  method : String
  scores : List (String × ℚ)
  deriving DecidableEq, Repr

/-- The lower-cased haystack built by `categorizeByRules` (ml.js line 47):
`${title} ${description} ${vendor}`, lower-cased. -/
def ruleText (title description vendor : String) : String :=
  strToLower (title ++ " " ++ description ++ " " ++ vendor)

/-- Per-category rule scores (ml.js lines 49-64): count of the category's
keywords contained in the text, normalized by the keyword-list length. -/
def ruleScores (title description vendor : String) : List (String × ℚ) :=
  let text := ruleText title description vendor
  categoryRules.map (fun p =>
    (p.1, ((p.2.filter (fun kw => strContains text kw)).length : ℚ) / (p.2.length : ℚ)))

/-- `categorizeByRules` from ml.js lines 45-79: arg-max of the rule scores,
confidence equal to the winning score, category `other` when that score
is not positive. -/
def categorizeByRules (title description vendor : String) : MlResult :=
  let scores := ruleScores title description vendor
  let bestCategory := argmaxKey (fun k => (lookupScore scores k).getD 0) (scores.map (·.1))
  let confidence := (lookupScore scores bestCategory).getD 0
  { category := if confidence > 0 then bestCategory else "other"
    confidence := confidence
    method := "rule-based"
    scores := scores }

/-- Modelled from the spec: the same rule-based classifier but with arg-max
ties resolved to the *first* category in enumeration order, following the
spec's numeric-semantics sentence ("ties in arg-max resolve to the first
category encountered in a fixed, deterministic enumeration order").  Used
only to compare against the source's `categorizeByRules`. -/
def categorizeByRulesSpec (title description vendor : String) : MlResult :=
  let scores := ruleScores title description vendor
  let f := fun k => (lookupScore scores k).getD 0
  let bestCategory :=
    match scores.map (·.1) with
    | [] => ""
    | k :: ks => ks.foldl (fun a b => if f b > f a then b else a) k
  let confidence := (lookupScore scores bestCategory).getD 0
  { category := if confidence > 0 then bestCategory else "other"
    confidence := confidence
    method := "rule-based"
    scores := scores }

/-- Amount-based hints `categorizeByAmount` from ml.js lines 82-103. -/
def categorizeByAmount (amount : ℚ) : List (String × ℚ) :=
  if amount < 20 then
    [("meals", 3/10), ("office_supplies", 2/10)]
  else if amount < 100 then
    [("meals", 4/10), ("transportation", 3/10), ("office_supplies", 1/10)]
  else if amount < 500 then
    [("accommodation", 3/10), ("software", 2/10), ("training", 2/10)]
  else
    [("travel", 4/10), ("accommodation", 3/10), ("training", 2/10)]

/-- One step of the score blend in `categorizeMachine` (ml.js lines
153-159): `if (combinedScores[c]) { average } else { hint * 0.5 }`.  The
JS truthiness test means a *present but zero* score takes the
`hint * 0.5` branch. -/
def combineOne (acc : List (String × ℚ)) (c : String) (h : ℚ) : List (String × ℚ) :=
  match lookupScore acc c with
  | some s => if s ≠ 0 then setScore acc c ((s + h) / 2) else setScore acc c (h * (1/2))
  | none => setScore acc c (h * (1/2))

/-- The blend loop of `categorizeMachine`: start from a copy of the
step-1/2 scores and fold the amount hints over it. -/
def combineScores (scores hints : List (String × ℚ)) : List (String × ℚ) :=
  hints.foldl (fun acc p => combineOne acc p.1 p.2) scores

/-- Pure core of `categorizeMachine` (ml.js lines 148-204): blend the
step-1/2 result `ml` with the amount hints, take the arg-max of the
combined scores, and accept it only above the 0.3 threshold
(`finalConfidence > 0.3 ? bestCategory : mlResult.category`); the
`combinedScores[bestCategory] || mlResult.confidence` fallback is the JS
`||` applied to a possibly-absent, possibly-zero score.  The surrounding
DB writes (expense update and audit insert) are modelled on `Db` below. -/
def categorizeMachineCore (ml : MlResult) (amount : ℚ) : MlResult :=
  let amountHints := categorizeByAmount amount
  let combined := combineScores ml.scores amountHints
  let bestCategory := argmaxKey (fun k => (lookupScore combined k).getD 0) (combined.map (·.1))
  let finalConfidence :=
    match lookupScore combined bestCategory with
    | some v => if v ≠ 0 then v else ml.confidence
    | none => ml.confidence
  let finalCategory := if finalConfidence > (3/10 : ℚ) then bestCategory else ml.category
  { category := finalCategory
    confidence := finalConfidence
    method := ml.method
    scores := combined }

/-- `expense_status` enum from `schema.sql`. -/
inductive Status
  | draft
  | pending
  | approved
  | rejected
  | reimbursed
  | changes_requested
  deriving DecidableEq, Repr

/-- The SQL text of each `expense_status` value. -/
def statusName : Status → String
  | .draft => "draft"
  | .pending => "pending"
  | .approved => "approved"
  | .rejected => "rejected"
  | .reimbursed => "reimbursed"
  | .changes_requested => "changes_requested"

/-- `ocr_status` enum from `schema.sql`, shared by `expenses.ocr_status`
and `ocr_queue.status`. -/
inductive OcrStatus
  | pending
  | processing
  | completed
  | failed
  deriving DecidableEq, Repr

/-- The fields of the `users` table that the lifecycle code reads. -/
structure User where
  id : Nat
  email : String
  firstName : String
  lastName : String
  role : String
  isActive : Bool
  deriving DecidableEq, Repr

/-- A row of `expense_audit_log` (append-only by intent). -/
structure AuditEntry where
  expenseId : Nat
  userId : Nat
  action : String
  oldStatus : Option Status
  newStatus : Option Status
  notes : String
  deriving DecidableEq, Repr

/-- A row of `notifications`. -/
structure Notif where
  userId : Nat
  title : String
  message : String
  ntype : String
  relatedExpenseId : Option Nat
  deriving DecidableEq, Repr

/-- A row of `expense_comments`. -/
structure ExpenseComment where
  expenseId : Nat
  userId : Nat
  comment : String
  isInternal : Bool
  deriving DecidableEq, Repr

/-- A row of `ocr_queue` (the spec's ExtractionJob). -/
structure OcrJob where
  expenseId : Nat
  receiptUrl : String
  status : OcrStatus
  attempts : Nat
  maxAttempts : Nat
  errorMessage : Option String
  processedAt : Option Int
  createdAt : Int
  deriving DecidableEq, Repr

/-- Output of `extractTextFromImage`: full text, key-value map and mean
confidence. -/
structure ExtractOut where
  fullText : String
  keyValuePairs : List (String × String)
  confidence : ℚ
  deriving DecidableEq, Repr

/-- The `parsedData` record built by `parseReceiptData`. -/
structure Parsed where
  vendor : Option String
  amount : Option ℚ
  date : Option String
  items : List String
  total : Option ℚ
  deriving DecidableEq, Repr

/-- The JS builtins used by `parseReceiptData` that are not part of the
repository's own code, abstracted as parameters: `matchAmount` is the
ordered `amountPatterns` regex block (part_000 lines 221-234), `matchDate`
the ordered `datePatterns` block plus `new Date`/`toISOString` (lines
237-253), `parseNum` the cleaning-`replace` chain plus `parseFloat`
applied to a key-value value (line 258), and `parseDate` `new Date` plus
`toISOString` applied to a key-value value (lines 265-269).  `none`
models a failed match / `NaN` / invalid date. -/
structure JsPrims where
  matchAmount : String → Option ℚ
  matchDate : String → Option String
  parseNum : String → Option ℚ
  parseDate : String → Option String

/-- The fields of the `expenses` table that the embedded code reads or
writes. -/
structure Expense where
  id : Nat
  userId : Nat
  title : String
  description : String
  amount : ℚ
  currency : String
  vendor : String
  category : String
  status : Status
  receiptUrl : Option String
  ocrStatus : OcrStatus
  ocrData : Option (ExtractOut × Parsed)
  mlSuggestedCategory : Option String
  mlConfidence : Option ℚ
  approverId : Option Nat
  approvalNotes : Option String
  approvedAt : Option Int
  rejectedAt : Option Int
  reimbursedAt : Option Int
  updatedAt : Int
  deriving DecidableEq, Repr

/-- The relational store: the tables touched by the embedded code. -/
structure Db where
  users : List User
  expenses : List Expense
  auditLog : List AuditEntry
  notifications : List Notif
  comments : List ExpenseComment
  ocrQueue : List OcrJob
  deriving DecidableEq, Repr

/-- `AppError` from `src/middleware/errorHandler.js`: message plus HTTP
status code. -/
structure AppErr where
  message : String
  statusCode : Nat
  deriving DecidableEq, Repr

/-- `SELECT * FROM expenses WHERE id = $1`. -/
def expenseById (db : Db) (i : Nat) : Option Expense :=
  db.expenses.find? (fun e => decide (e.id = i))

/-- `SELECT * FROM expenses WHERE id = $1 AND user_id = $2`. -/
def expenseOwned (db : Db) (uid i : Nat) : Option Expense :=
  db.expenses.find? (fun e => decide (e.id = i ∧ e.userId = uid))

/-- The `ocr_queue` row(s) for an expense, first row wins. -/
def jobById (db : Db) (i : Nat) : Option OcrJob :=
  db.ocrQueue.find? (fun j => decide (j.expenseId = i))

/-- `SELECT ... FROM users WHERE role IN ('approver','admin') AND
is_active = true` (expenses.js lines 449-453). -/
def eligibleApprovers (db : Db) : List User :=
  db.users.filter (fun u => decide ((u.role = "approver" ∨ u.role = "admin") ∧ u.isActive = true))

/-- The `ORDER BY RANDOM() LIMIT 1` pick, with the randomness made an
explicit `rand` input: chooses an arbitrary eligible approver, `none`
exactly when no eligible approver exists. -/
def pickApprover (db : Db) (rand : Nat) : Option User :=
  (eligibleApprovers db).get? (rand % (eligibleApprovers db).length)

/-- `UPDATE expenses SET ... WHERE id = $1`. -/
def updateExpense (db : Db) (i : Nat) (g : Expense → Expense) : Db :=
  { db with expenses := db.expenses.map (fun e => if e.id = i then g e else e) }

/-- `UPDATE ocr_queue SET ... WHERE expense_id = $1`. -/
def updateJobs (db : Db) (i : Nat) (g : OcrJob → OcrJob) : Db :=
  { db with ocrQueue := db.ocrQueue.map (fun j => if j.expenseId = i then g j else j) }

/-- `POST /expenses/:id/submit` (expenses.js lines 432-545): guard on
`draft`, pick a random eligible approver, then in one transaction set the
status and approver, append the audit entry and append the approver's
notification.  The follow-up e-mails are external side effects whose
failures the route swallows, so they are not part of the state. -/
def submitExpense (db : Db) (actor : User) (i : Nat) (rand : Nat) (now : Int) : Except AppErr Db :=
  match expenseOwned db actor.id i with
  | none => .error ⟨"Expense not found", 404⟩
  | some e =>
    if e.status ≠ Status.draft then
      .error ⟨"Can only submit expenses in draft status", 400⟩
    else
      match pickApprover db rand with
      | none => .error ⟨"No approvers available", 500⟩
      | some approver =>
        let db1 := updateExpense db i (fun x =>
          { x with status := Status.pending, approverId := some approver.id, updatedAt := now })
        .ok { db1 with
          auditLog := db1.auditLog ++
            [⟨i, actor.id, "submitted", some Status.draft, some Status.pending,
              "Expense submitted for approval"⟩],
          notifications := db1.notifications ++
            [⟨approver.id, "New expense requires approval",
              actor.firstName ++ " " ++ actor.lastName ++ " submitted an expense for " ++
                e.currency ++ " " ++ toString e.amount,
              "approval_request", some i⟩] }

/-- `POST /admin/expenses/:id/approve` (admin.js lines 57-153): guard on
`pending`, then in one transaction set the status, approver, timestamp and
notes, append the audit entry and append the owner's notification.  The
ML feedback trigger that follows is fire-and-forget (`.catch`) and is
modelled by `feedbackLearningRun`. -/
def approveExpense (db : Db) (actor : User) (notes : Option String) (i : Nat) (now : Int) :
    Except AppErr Db :=
  match expenseById db i with
  | none => .error ⟨"Expense not found", 404⟩
  | some e =>
    if e.status ≠ Status.pending then
      .error ⟨"Can only approve pending expenses", 400⟩
    else
      let db1 := updateExpense db i (fun x =>
        { x with status := Status.approved, approverId := some actor.id,
                 approvedAt := some now, approvalNotes := notes, updatedAt := now })
      .ok { db1 with
        auditLog := db1.auditLog ++
          [⟨i, actor.id, "approved", some Status.pending, some Status.approved,
            notes.getD "Expense approved"⟩],
        notifications := db1.notifications ++
          [⟨e.userId, "Expense approved",
            "Your expense " ++ e.title ++ " has been approved by " ++
              actor.firstName ++ " " ++ actor.lastName,
            "expense_approved", some i⟩] }

/-- `POST /admin/expenses/:id/reject` (admin.js lines 156-249): the
empty-reason validation runs before anything else, then the `pending`
guard, then one transaction writing status, audit entry and
notification. -/
def rejectExpense (db : Db) (actor : User) (reason : String) (i : Nat) (now : Int) :
    Except AppErr Db :=
  if String.mk (trimChars reason.toList) = "" then
    .error ⟨"Rejection reason is required", 400⟩
  else
    match expenseById db i with
    | none => .error ⟨"Expense not found", 404⟩
    | some e =>
      if e.status ≠ Status.pending then
        .error ⟨"Can only reject pending expenses", 400⟩
      else
        let db1 := updateExpense db i (fun x =>
          { x with status := Status.rejected, approverId := some actor.id,
                   rejectedAt := some now, approvalNotes := some reason, updatedAt := now })
        .ok { db1 with
          auditLog := db1.auditLog ++
            [⟨i, actor.id, "rejected", some Status.pending, some Status.rejected, reason⟩],
          notifications := db1.notifications ++
            [⟨e.userId, "Expense rejected",
              "Your expense " ++ e.title ++ " has been rejected by " ++
                actor.firstName ++ " " ++ actor.lastName,
              "expense_rejected", some i⟩] }

/-- `POST /admin/expenses/:id/request-changes` (admin.js lines 252-331):
empty-message validation, `pending` guard, then one transaction writing
status, the comment row, the audit entry and the notification. -/
def requestChangesExpense (db : Db) (actor : User) (message : String) (i : Nat) (now : Int) :
    Except AppErr Db :=
  if String.mk (trimChars message.toList) = "" then
    .error ⟨"Change request message is required", 400⟩
  else
    match expenseById db i with
    | none => .error ⟨"Expense not found", 404⟩
    | some e =>
      if e.status ≠ Status.pending then
        .error ⟨"Can only request changes for pending expenses", 400⟩
      else
        let db1 := updateExpense db i (fun x =>
          { x with status := Status.changes_requested, approverId := some actor.id,
                   approvalNotes := some message, updatedAt := now })
        .ok { db1 with
          comments := db1.comments ++ [⟨i, actor.id, message, false⟩],
          auditLog := db1.auditLog ++
            [⟨i, actor.id, "changes_requested", some Status.pending,
              some Status.changes_requested, message⟩],
          notifications := db1.notifications ++
            [⟨e.userId, "Changes requested for expense",
              actor.firstName ++ " " ++ actor.lastName ++
                " has requested changes to your expense " ++ e.title,
              "changes_requested", some i⟩] }

/-- `POST /admin/expenses/:id/reimburse` (admin.js lines 334-401): guard
on `approved`, then one transaction writing status, audit entry and
notification. -/
def reimburseExpense (db : Db) (actor : User) (notes : Option String) (i : Nat) (now : Int) :
    Except AppErr Db :=
  match expenseById db i with
  | none => .error ⟨"Expense not found", 404⟩
  | some e =>
    if e.status ≠ Status.approved then
      .error ⟨"Can only reimburse approved expenses", 400⟩
    else
      let db1 := updateExpense db i (fun x =>
        { x with status := Status.reimbursed, reimbursedAt := some now, updatedAt := now })
      .ok { db1 with
        auditLog := db1.auditLog ++
          [⟨i, actor.id, "reimbursed", some Status.approved, some Status.reimbursed,
            notes.getD "Expense reimbursed"⟩],
        notifications := db1.notifications ++
          [⟨e.userId, "Expense reimbursed",
            "Your expense " ++ e.title ++ " has been reimbursed",
            "expense_reimbursed", some i⟩] }

/-- `DELETE /expenses/:id` (expenses.js lines 548-582): guard on `draft`,
then one transaction deleting the comments, the audit-log rows, the OCR
queue rows, the notifications and finally the expense itself. -/
def deleteExpense (db : Db) (actor : User) (i : Nat) : Except AppErr Db :=
  match expenseOwned db actor.id i with
  | none => .error ⟨"Expense not found", 404⟩
  | some e =>
    if e.status ≠ Status.draft then
      .error ⟨"Can only delete expenses in draft status", 400⟩
    else
      .ok { db with
        comments := db.comments.filter (fun c => decide (c.expenseId ≠ i)),
        auditLog := db.auditLog.filter (fun a => decide (a.expenseId ≠ i)),
        ocrQueue := db.ocrQueue.filter (fun j => decide (j.expenseId ≠ i)),
        notifications := db.notifications.filter (fun n => decide (n.relatedExpenseId ≠ some i)),
        expenses := db.expenses.filter (fun e => decide (e.id ≠ i)) }

/-- The body of the `Object.keys(keyValuePairs).forEach` loop of
`parseReceiptData` (part_000 lines 256-271) applied to one key-value
pair: a key containing `total`/`amount` whose value parses writes the
`total` field, and a key containing `date`/`time` whose value parses
overwrites the `date` field. -/
def applyKv (p : JsPrims) (acc : Parsed) (kv : String × String) : Parsed :=
  let acc1 :=
    if strContains kv.1 "total" || strContains kv.1 "amount" then
      match p.parseNum kv.2 with
      | some a => { acc with total := some a }
      | none => acc
    else acc
  if strContains kv.1 "date" || strContains kv.1 "time" then
    match p.parseDate kv.2 with
    | some d => { acc1 with date := some d }
    | none => acc1
  else acc1

/-- `parseReceiptData` from part_000 lines 202-274: vendor is the first
non-blank line, amount and date come from the free-text pattern blocks,
then the key-value loop runs `applyKv` over the pairs in object order;
the `amount` field is never touched by the key-value loop. -/
def parseReceiptData (p : JsPrims) (fullText : String) (keyValuePairs : List (String × String)) :
    Parsed :=
  let lines := (fullText.toList.splitOn '\n').filter (fun l => !(trimChars l).isEmpty)
  let base : Parsed :=
    { vendor := lines.head?.map (fun l => String.mk (trimChars l))
      amount := p.matchAmount fullText
      date := p.matchDate fullText
      items := []
      total := none }
  keyValuePairs.foldl (applyKv p) base

/-- `processReceiptOCR` from part_000 lines 276-352: mark the expense and
its queue row `processing`, run extraction (the `extraction` argument is
the outcome of `extractTextFromImage`, which throws on provider failure),
then either write the parsed payload, mark everything `completed` and
append the audit entry, or on failure mark everything `failed`, bump
`attempts`, record the error and *re-throw* (`throw error`, line 350).
The returned `Except` is what the caller observes. -/
def processReceiptOCR (prims : JsPrims) (db : Db) (i : Nat) (receiptUrl : String)
    (extraction : Except String ExtractOut) (now : Int) : Db × Except String Parsed :=
  let db1 := updateExpense db i (fun e => { e with ocrStatus := OcrStatus.processing })
  let db2 := updateJobs db1 i (fun j =>
    { j with status := OcrStatus.processing, processedAt := some now })
  match extraction with
  | .error msg =>
    let db3 := updateExpense db2 i (fun e => { e with ocrStatus := OcrStatus.failed })
    let db4 := updateJobs db3 i (fun j =>
      { j with status := OcrStatus.failed, errorMessage := some msg,
               attempts := j.attempts + 1, processedAt := some now })
    (db4, .error msg)
  | .ok ocr =>
    let parsed := parseReceiptData prims ocr.fullText ocr.keyValuePairs
    let db3 := updateExpense db2 i (fun e =>
      { e with ocrData := some (ocr, parsed), ocrStatus := OcrStatus.completed, updatedAt := now })
    let db4 := updateJobs db3 i (fun j =>
      { j with status := OcrStatus.completed, processedAt := some now })
    let db5 :=
      match expenseById db4 i with
      | some e =>
        { db4 with auditLog := db4.auditLog ++
            [⟨i, e.userId, "ocr_processed", none, none, "OCR processing completed"⟩] }
      | none => db4
    (db5, .ok parsed)

/-- The `INTERVAL '24 hours'` window of `retryOCRProcessing`, in
milliseconds. -/
def ocrRetryWindow : Int := 24 * 60 * 60 * 1000

/-- The WHERE clause of the retry sweep (part_000 lines 358-365):
`status = 'failed' AND attempts < max_attempts AND created_at >
NOW() - INTERVAL '24 hours'`. -/
def retryEligible (now : Int) (j : OcrJob) : Bool :=
  decide (j.status = OcrStatus.failed ∧ j.attempts < j.maxAttempts ∧
    now - ocrRetryWindow < j.createdAt)

/-- The job list the sweep's SELECT returns: eligible jobs, oldest first
(`ORDER BY created_at ASC`), at most 10 (`LIMIT 10`). -/
def retrySelection (db : Db) (now : Int) : List OcrJob :=
  ((db.ocrQueue.filter (retryEligible now)).mergeSort
    (fun a b => decide (a.createdAt ≤ b.createdAt))).take 10

/-- The jobs for which `retryOCRProcessing` actually invokes
`processReceiptOCR`: the loop body runs the extraction only when the
expense row still exists (part_000 lines 367-383). -/
def retrySweepRun (db : Db) (now : Int) : List OcrJob :=
  (retrySelection db now).filter (fun j => (expenseById db j.expenseId).isSome)

/-- The try-block of `feedbackLearning` (ml.js lines 323-378): load the
expense (throwing when absent), and only when a prior ML suggestion exists
and differs from the user's correction call the remote feedback endpoint
(`remote` is that call's outcome; a failure throws) and append the audit
entry.  Returns the new state and whether the remote call was made. -/
def feedbackLearningInner (db : Db) (i : Nat) (corrected : String)
    (remote : Except String Unit) : Except String (Db × Bool) :=
  match expenseById db i with
  | none => .error "Expense not found"
  | some e =>
    if e.mlSuggestedCategory ≠ none ∧ e.mlSuggestedCategory ≠ some corrected then
      match remote with
      | .error m => .error m
      | .ok _ =>
        .ok ({ db with auditLog := db.auditLog ++
          [⟨i, e.userId, "ml_feedback", none, none,
            "User corrected ML suggestion to " ++ corrected⟩] }, true)
    else .ok (db, false)

/-- The whole `feedbackLearning` call including its catch-all handler
(ml.js lines 379-382), which logs and deliberately does not re-throw: the
caller always receives a normal return. -/
def feedbackLearningRun (db : Db) (i : Nat) (corrected : String)
    (remote : Except String Unit) : Except String (Db × Bool) :=
  match feedbackLearningInner db i corrected remote with
  | .ok r => .ok r
  | .error _ => .ok (db, false)

/-- The column sets on `ocr_queue` backed by a unique or exclusion
constraint, from `schema.sql` lines 137-147 and 172-173: only the
`id` primary key (the indexes on `status` and `created_at` are
non-unique, and `expense_id` carries no UNIQUE constraint). -/
def ocrQueueUniqueTargets : List (List String) := [["id"]]

/-- The conflict target of the `INSERT INTO ocr_queue ... ON CONFLICT
(expense_id) DO UPDATE` statement in `PUT /expenses/:id` (expenses.js
lines 399-408). -/
def ocrUpsertConflictTarget : List String := ["expense_id"]

/-- PostgreSQL executes `ON CONFLICT (cols) DO UPDATE` only when `cols`
matches some unique or exclusion constraint; otherwise the statement
fails with error 42P10 regardless of the data. -/
def pgConflictTargetSupported (uniqueTargets : List (List String)) (target : List String) : Bool :=
  uniqueTargets.contains target

/-- Unwrap a handler result, keeping a default state on error (used to
name concrete post-states in witnesses). -/
def exceptStateD (r : Except AppErr Db) (d : Db) : Db :=
  match r with
  | .ok s => s
  | .error _ => d

/-- A baseline expense row used by the concrete scenarios below. -/
def baseExpense : Expense :=
  { id := 1
    userId := 2
    title := "Team Lunch"
    description := ""
    amount := 50
    currency := "BRL"
    vendor := "Restaurante Central"
    category := "meals"
    status := Status.draft
    receiptUrl := some "file://receipts/2/r.png"
    ocrStatus := OcrStatus.pending
    ocrData := none
    mlSuggestedCategory := none
    mlConfidence := none
    approverId := none
    approvalNotes := none
    approvedAt := none
    rejectedAt := none
    reimbursedAt := none
    updatedAt := 0 }

/-- An employee user owning expense 1. -/
def empU : User :=
  { id := 2, email := "emp@x.com", firstName := "Ana", lastName := "Lima"
    role := "employee", isActive := true }

/-- An active admin user, the only eligible approver in the scenarios. -/
def admU : User :=
  { id := 9, email := "adm@x.com", firstName := "Rui", lastName := "Souza"
    role := "admin", isActive := true }

/-- Store with expense 1 in `draft`. -/
def dbDraft : Db :=
  { users := [empU, admU]
    expenses := [baseExpense]
    auditLog := []
    notifications := []
    comments := []
    ocrQueue := [] }

/-- Store with expense 1 in `pending`. -/
def dbPending : Db :=
  { dbDraft with expenses := [{ baseExpense with status := Status.pending }] }

/-- Store with expense 1 in `approved`. -/
def dbApproved : Db :=
  { dbDraft with expenses := [{ baseExpense with status := Status.approved }] }

/-- Primitive pack whose members never match, modelling JS builtins on
texts without digits or dates. -/
def primsNone : JsPrims :=
  { matchAmount := fun _ => none
    matchDate := fun _ => none
    parseNum := fun _ => none
    parseDate := fun _ => none }

/-- Primitive pack for the `parseReceiptData` counterexample: the receipt
text `"Cafe Bom"` has no digits, so every free-text pattern fails, while
`parseFloat` on the key-value string `"99.00"` yields 99. -/
def prims9 : JsPrims :=
  { matchAmount := fun _ => none
    matchDate := fun _ => none
    parseNum := fun s => if s = "99.00" then some 99 else none
    parseDate := fun _ => none }

/-- Store with expense 1 plus its pending OCR queue row. -/
def dbC2 : Db :=
  { dbDraft with ocrQueue :=
      [{ expenseId := 1, receiptUrl := "file://receipts/2/r.png", status := OcrStatus.pending
         attempts := 0, maxAttempts := 3, errorMessage := none, processedAt := none
         createdAt := 0 }] }

/-- Store with expense 1 carrying an ML suggestion equal to its category. -/
def dbFb : Db :=
  { dbDraft with expenses :=
      [{ baseExpense with mlSuggestedCategory := some "meals", mlConfidence := some (1/2) }] }

/-- Store with a draft expense that already has one audit entry
(its creation record). -/
def dbDel : Db :=
  { dbDraft with auditLog := [⟨1, 2, "created", none, some Status.draft, "Expense created"⟩] }

/-- A failed OCR job inside the retry window with attempts to spare. -/
def job6 : OcrJob :=
  { expenseId := 1, receiptUrl := "file://receipts/2/r.png", status := OcrStatus.failed
    attempts := 1, maxAttempts := 3, errorMessage := some "timeout", processedAt := some 1
    createdAt := 5 }

/-- Store for the retry-sweep witness: one eligible failed job. -/
def db6 : Db := { dbDraft with ocrQueue := [job6] }

/-- A step-1/2 result used by the blend witness. -/
def mlW3 : MlResult :=
  { category := "meals", confidence := 1/2, method := "rule-based", scores := [("meals", 1/2)] }

/-- A key absent from an association list looks up to `none`. -/
theorem lookupScore_eq_none_of_not_mem {m : List (String × ℚ)} {c : String}
    (h : c ∉ m.map (·.1)) : lookupScore m c = none := by
  induction m with
  | nil => rfl
  | cons p ps ih =>
    simp only [List.map_cons, List.mem_cons] at h
    push_neg at h
    simp only [lookupScore]
    rw [if_neg (fun hh => h.1 hh.symm)]
    exact ih h.2

/-- A successful lookup witnesses key membership. -/
theorem mem_of_lookupScore {m : List (String × ℚ)} {c : String} {v : ℚ}
    (h : lookupScore m c = some v) : c ∈ m.map (·.1) := by
  induction m with
  | nil => simp [lookupScore] at h
  | cons p ps ih =>
    simp only [lookupScore] at h
    by_cases hc : p.1 = c
    · simp [hc.symm]
    · rw [if_neg hc] at h
      simp [ih h]

/-- A member key looks up to some value. -/
theorem lookupScore_of_mem {m : List (String × ℚ)} {c : String}
    (h : c ∈ m.map (·.1)) : ∃ v, lookupScore m c = some v := by
  induction m with
  | nil => simp at h
  | cons p ps ih =>
    simp only [lookupScore]
    by_cases hc : p.1 = c
    · exact ⟨p.2, by rw [if_pos hc]⟩
    · rw [if_neg hc]
      apply ih
      simp only [List.map_cons, List.mem_cons] at h
      rcases h with h | h
      · exact absurd h.symm hc
      · exact h

/-- Reading back a JS object write: `setScore` changes exactly the written
key. -/
theorem lookupScore_setScore (m : List (String × ℚ)) (k : String) (v : ℚ) (c : String) :
    lookupScore (setScore m k v) c = if c = k then some v else lookupScore m c := by
  induction m with
  | nil =>
    simp only [setScore, lookupScore]
    by_cases hc : c = k
    · rw [if_pos (hc.symm), if_pos hc]
    · rw [if_neg (fun hh => hc hh.symm), if_neg hc]
  | cons p ps ih =>
    simp only [setScore]
    by_cases hp : p.1 = k
    · rw [if_pos hp]
      simp only [lookupScore]
      by_cases hc : c = k
      · rw [if_pos hc.symm, if_pos hc]
      · rw [if_neg (fun hh => hc hh.symm), if_neg hc, if_neg (fun hh => hc (hp ▸ hh).symm)]
    · rw [if_neg hp]
      simp only [lookupScore, ih]
      by_cases hpc : p.1 = c
      · have hck : ¬ c = k := fun hh => hp (hpc.trans hh)
        rw [if_pos hpc, if_neg hck, if_pos hpc]
      · rw [if_neg hpc, if_neg hpc]

/-- Reading back one blend step: `combineOne` changes exactly the hint's
key, to the average when a non-zero score is present and to half the hint
otherwise. -/
theorem lookupScore_combineOne (acc : List (String × ℚ)) (c : String) (h : ℚ) (x : String) :
    lookupScore (combineOne acc c h) x =
      if x = c then
        (match lookupScore acc c with
          | some s => if s ≠ 0 then some ((s + h) / 2) else some (h * (1/2))
          | none => some (h * (1/2)))
      else lookupScore acc x := by
  unfold combineOne
  cases hl : lookupScore acc c with
  | none => rw [lookupScore_setScore]
  | some s =>
    dsimp only
    by_cases hs : s ≠ 0
    · rw [if_pos hs, if_pos hs, lookupScore_setScore]
    · rw [if_neg hs, if_neg hs, lookupScore_setScore]

/-- Reading back the whole blend (hint keys are unique, as JS object
keys): a category's combined score is the code's case split on presence
and zero-ness of the step-1/2 score. -/
theorem lookupScore_combineScores (hints : List (String × ℚ)) :
    ∀ (scores : List (String × ℚ)) (c : String),
      (hints.map (·.1)).Nodup →
      lookupScore (combineScores scores hints) c =
        (match lookupScore hints c, lookupScore scores c with
          | some h, some s => if s ≠ 0 then some ((s + h) / 2) else some (h * (1/2))
          | some h, none => some (h * (1/2))
          | none, _ => lookupScore scores c) := by
  induction hints with
  | nil => intro scores c _; rfl
  | cons q qs ih =>
    intro scores c hnd
    simp only [List.map_cons, List.nodup_cons] at hnd
    have step : combineScores scores (q :: qs) = combineScores (combineOne scores q.1 q.2) qs := rfl
    rw [step, ih (combineOne scores q.1 q.2) c hnd.2]
    by_cases hc : c = q.1
    · have hqs : lookupScore qs c = none :=
        lookupScore_eq_none_of_not_mem (by rw [hc]; exact hnd.1)
      have hq : lookupScore (q :: qs) c = some q.2 := by
        simp only [lookupScore]; rw [if_pos hc.symm]
      rw [hqs, hq, lookupScore_combineOne, if_pos hc, hc]
      cases lookupScore scores q.1 <;> rfl
    · have hq : lookupScore (q :: qs) c = lookupScore qs c := by
        simp only [lookupScore]; rw [if_neg (fun hh => hc hh.symm)]
      rw [hq, lookupScore_combineOne, if_neg hc]

/-- Characterization of the JS arg-max reduce over a non-empty key list:
the result is a member, its value dominates every key's value, and among
the keys attaining the maximum it is the *last* one (strict `>` keeps the
incumbent only when strictly greater). -/
theorem foldl_max_char (f : String → ℚ) (l : List String) :
    ∀ a : String,
      (l.foldl (fun a b => if f a > f b then a else b) a) ∈ a :: l ∧
      (∀ x ∈ a :: l, f x ≤ f (l.foldl (fun a b => if f a > f b then a else b) a)) ∧
      ((a :: l).filter
          (fun x => decide (f (l.foldl (fun a b => if f a > f b then a else b) a) ≤ f x))).getLast?
        = some (l.foldl (fun a b => if f a > f b then a else b) a) := by
  induction l with
  | nil =>
    intro a
    refine ⟨by simp, by simp, ?_⟩
    simp [List.filter]
  | cons b t ih =>
    intro a
    simp only [List.foldl_cons]
    obtain ⟨h1, h2, h3⟩ := ih (if f a > f b then a else b)
    by_cases hab : f a > f b
    · simp only [if_pos hab] at h1 h2 h3 ⊢
      have hfa : f a ≤ f (t.foldl (fun a b => if f a > f b then a else b) a) :=
        h2 a (List.mem_cons_self a t)
      have hnb : ¬ (f (t.foldl (fun a b => if f a > f b then a else b) a) ≤ f b) := by
        intro hh
        exact absurd (le_trans hfa hh) (not_le.mpr hab)
      refine ⟨?_, ?_, ?_⟩
      · rcases List.mem_cons.mp h1 with h | h
        · rw [h]
          exact List.mem_cons_self a (b :: t)
        · exact List.mem_cons_of_mem a (List.mem_cons_of_mem b h)
      · intro x hx
        rcases List.mem_cons.mp hx with rfl | hx
        · exact hfa
        rcases List.mem_cons.mp hx with rfl | hx
        · exact le_trans (le_of_lt hab) hfa
        · exact h2 x (List.mem_cons_of_mem _ hx)
      · rw [List.filter_cons] at h3 ⊢
        rw [List.filter_cons, if_neg (fun hh => hnb (of_decide_eq_true hh))]
        exact h3
    · simp only [if_neg hab] at h1 h2 h3 ⊢
      have hba : f a ≤ f b := le_of_not_lt hab
      have hfb : f b ≤ f (t.foldl (fun a b => if f a > f b then a else b) b) :=
        h2 b (List.mem_cons_self b t)
      refine ⟨?_, ?_, ?_⟩
      · exact List.mem_cons_of_mem a h1
      · intro x hx
        rcases List.mem_cons.mp hx with rfl | hx
        · exact le_trans hba hfb
        · exact h2 x hx
      · by_cases hpa : f (t.foldl (fun a b => if f a > f b then a else b) b) ≤ f a
        · have hpb : f (t.foldl (fun a b => if f a > f b then a else b) b) ≤ f b :=
            le_trans hpa hba
          rw [List.filter_cons, if_pos (decide_eq_true hpb)] at h3
          rw [List.filter_cons, if_pos (decide_eq_true hpa), List.filter_cons,
            if_pos (decide_eq_true hpb), List.getLast?_cons_cons]
          exact h3
        · rw [List.filter_cons, if_neg (fun hh => hpa (of_decide_eq_true hh))]
          exact h3

/-- The `argmaxKey` wrapper of `foldl_max_char` for non-empty key lists. -/
theorem argmaxKey_spec (f : String → ℚ) (k : String) (ks : List String) :
    argmaxKey f (k :: ks) ∈ k :: ks ∧
    (∀ x ∈ k :: ks, f x ≤ f (argmaxKey f (k :: ks))) ∧
    ((k :: ks).filter (fun x => decide (f (argmaxKey f (k :: ks)) ≤ f x))).getLast? =
      some (argmaxKey f (k :: ks)) := by
  simpa only [argmaxKey] using foldl_max_char f ks k

/-- The amount-hint map has unique keys in every amount bucket. -/
theorem categorizeByAmount_nodup (q : ℚ) : ((categorizeByAmount q).map (·.1)).Nodup := by
  unfold categorizeByAmount
  split
  · decide
  split
  · decide
  split
  · decide
  · decide

/-- Every amount bucket carries at least one strictly positive hint. -/
theorem categorizeByAmount_pos (q : ℚ) :
    ∃ k h, lookupScore (categorizeByAmount q) k = some h ∧ 0 < h := by
  unfold categorizeByAmount
  split
  · exact ⟨"meals", 3/10, by simp [lookupScore], by norm_num⟩
  split
  · exact ⟨"meals", 4/10, by simp [lookupScore], by norm_num⟩
  split
  · exact ⟨"accommodation", 3/10, by simp [lookupScore], by norm_num⟩
  · exact ⟨"travel", 4/10, by simp [lookupScore], by norm_num⟩

/-- C4 (amended): for every title/description/vendor, the rule-based
classifier scores each category as (keywords contained in the lower-cased
`title description vendor` text) divided by the keyword-list length; its
confidence is the maximum score, attained at the returned best category;
the category is `other` exactly when the best score is not positive; and
arg-max ties resolve deterministically to the *last* tied category in the
fixed enumeration order (not the first, as the original claim stated). -/
theorem C4_rule_classifier (title description vendor : String) :
    (∀ c kws, (c, kws) ∈ categoryRules →
      lookupScore (categorizeByRules title description vendor).scores c =
        some (((kws.filter (fun kw =>
            strContains (ruleText title description vendor) kw)).length : ℚ) /
          (kws.length : ℚ))) ∧
    ∃ best, best ∈ (ruleScores title description vendor).map (·.1) ∧
      (∀ k ∈ (ruleScores title description vendor).map (·.1),
        (lookupScore (ruleScores title description vendor) k).getD 0 ≤
          (lookupScore (ruleScores title description vendor) best).getD 0) ∧
      (((ruleScores title description vendor).map (·.1)).filter (fun k =>
        decide ((lookupScore (ruleScores title description vendor) best).getD 0 ≤
          (lookupScore (ruleScores title description vendor) k).getD 0))).getLast? = some best ∧
      (categorizeByRules title description vendor).confidence =
        (lookupScore (ruleScores title description vendor) best).getD 0 ∧
      (categorizeByRules title description vendor).category =
        (if 0 < (lookupScore (ruleScores title description vendor) best).getD 0 then best
         else "other") := by
  constructor
  · intro c kws h
    fin_cases h <;> simp [categorizeByRules, ruleScores, categoryRules, lookupScore]
  · have hkeys : (ruleScores title description vendor).map (·.1) =
        ["meals", "transportation", "accommodation", "office_supplies", "software",
         "training", "marketing", "travel"] := by
      simp [ruleScores, categoryRules]
    obtain ⟨hmem, hmax, hlast⟩ := argmaxKey_spec
      (fun k => (lookupScore (ruleScores title description vendor) k).getD 0)
      "meals" ["transportation", "accommodation", "office_supplies", "software",
        "training", "marketing", "travel"]
    refine ⟨argmaxKey (fun k => (lookupScore (ruleScores title description vendor) k).getD 0)
      ((ruleScores title description vendor).map (·.1)), ?_, ?_, ?_, ?_, ?_⟩
    · rw [hkeys]
      exact hmem
    · rw [hkeys]
      exact hmax
    · rw [hkeys]
      exact hlast
    · rw [hkeys]
      rfl
    · rw [hkeys]
      rfl

/-- The rule scores of the tie input `title "lunch"`, `vendor "desk"`:
`meals` and `office_supplies` both score 1/14, everything else 0. -/
theorem ruleScores_lunch_desk :
    ruleScores "lunch" "" "desk" =
      [("meals", 1/14), ("transportation", 0), ("accommodation", 0),
       ("office_supplies", 1/14), ("software", 0), ("training", 0),
       ("marketing", 0), ("travel", 0)] := by
  have h1 : (List.filter (fun kw => strContains (ruleText "lunch" "" "desk") kw)
      ["restaurant", "food", "lunch", "dinner", "breakfast", "cafe", "coffee",
       "pizza", "burger", "sushi", "delivery", "takeout", "meal", "dining"]).length = 1 := by
    decide
  have h2 : (List.filter (fun kw => strContains (ruleText "lunch" "" "desk") kw)
      ["uber", "lyft", "taxi", "bus", "train", "subway", "metro", "airline",
       "flight", "car rental", "parking", "toll", "gas", "fuel", "mileage"]).length = 0 := by
    decide
  have h3 : (List.filter (fun kw => strContains (ruleText "lunch" "" "desk") kw)
      ["hotel", "motel", "inn", "resort", "airbnb", "booking", "lodging",
       "accommodation", "stay", "room", "suite"]).length = 0 := by
    decide
  have h4 : (List.filter (fun kw => strContains (ruleText "lunch" "" "desk") kw)
      ["staples", "office", "supplies", "paper", "pen", "pencil", "notebook",
       "folder", "binder", "printer", "ink", "toner", "desk", "chair"]).length = 1 := by
    decide
  have h5 : (List.filter (fun kw => strContains (ruleText "lunch" "" "desk") kw)
      ["software", "app", "subscription", "license", "saas", "cloud", "microsoft",
       "adobe", "google", "zoom", "slack", "github", "aws", "digital"]).length = 0 := by
    decide
  have h6 : (List.filter (fun kw => strContains (ruleText "lunch" "" "desk") kw)
      ["course", "training", "workshop", "seminar", "conference", "education",
       "learning", "certification", "udemy", "coursera", "book", "tutorial"]).length = 0 := by
    decide
  have h7 : (List.filter (fun kw => strContains (ruleText "lunch" "" "desk") kw)
      ["advertising", "marketing", "promotion", "social media", "facebook",
       "google ads", "linkedin", "campaign", "branding", "design"]).length = 0 := by
    decide
  have h8 : (List.filter (fun kw => strContains (ruleText "lunch" "" "desk") kw)
      ["travel", "trip", "business trip", "visa", "passport", "insurance",
       "luggage", "baggage", "airport", "terminal"]).length = 0 := by
    decide
  simp only [ruleScores, categoryRules, List.map_cons, List.map_nil, h1, h2, h3, h4, h5, h6, h7, h8]
  norm_num

/-- C4 counterexample: on the input `{title: "lunch", vendor: "desk"}` the
categories `meals` and `office_supplies` tie at 1/14, the source's
classifier returns `office_supplies` (the *last* tied category), while the
spec's first-category tie-breaking would return `meals`. -/
theorem C4_rule_classifier_cex :
    (categorizeByRules "lunch" "" "desk").category = "office_supplies" ∧
    (categorizeByRulesSpec "lunch" "" "desk").category = "meals" ∧
    ("office_supplies" : String) ≠ "meals" := by
  refine ⟨?_, ?_, by decide⟩
  · simp only [categorizeByRules, ruleScores_lunch_desk]
    simp [argmaxKey, lookupScore, List.foldl_cons, List.foldl_nil, List.map_cons,
      List.map_nil]
  · simp only [categorizeByRulesSpec, ruleScores_lunch_desk]
    simp [lookupScore, List.foldl_cons, List.foldl_nil, List.map_cons, List.map_nil]
    norm_num

/-- C4 witness: the score formula instantiated for the `meals` row of the
tie input (1 of the 14 meals keywords occurs in the text). -/
theorem C4_rule_classifier_witness :
    lookupScore (categorizeByRules "lunch" "" "desk").scores "meals" =
      some (((["restaurant", "food", "lunch", "dinner", "breakfast", "cafe", "coffee",
          "pizza", "burger", "sushi", "delivery", "takeout", "meal", "dining"].filter
            (fun kw => strContains (ruleText "lunch" "" "desk") kw)).length : ℚ) /
        ((["restaurant", "food", "lunch", "dinner", "breakfast", "cafe", "coffee",
          "pizza", "burger", "sushi", "delivery", "takeout", "meal", "dining"] :
            List String).length : ℚ)) :=
  (C4_rule_classifier "lunch" "" "desk").1 "meals"
    ["restaurant", "food", "lunch", "dinner", "breakfast", "cafe", "coffee",
     "pizza", "burger", "sushi", "delivery", "takeout", "meal", "dining"] (by decide)

/-- C3: for every step-1/2 result with non-negative scores and every
amount, (1) each category's combined score is the average of score and
hint when both are present (a present-but-zero score coincides with the
half-hint the code writes), the half hint when only the hint is present,
and the unchanged score otherwise; (2) the final category is an arg-max
`best` of the combined scores when its combined score exceeds 0.3, and is
exactly the step-1/2 category otherwise — never a default `other`. -/
theorem C3_blend_threshold (ml : MlResult) (amount : ℚ)
    (hpos : ∀ c v, lookupScore ml.scores c = some v → 0 ≤ v) :
    (∀ c, lookupScore (categorizeMachineCore ml amount).scores c =
      (match lookupScore (categorizeByAmount amount) c, lookupScore ml.scores c with
        | some h, some s => some ((s + h) / 2)
        | some h, none => some (h * (1/2))
        | none, _ => lookupScore ml.scores c)) ∧
    (∃ best, best ∈ (categorizeMachineCore ml amount).scores.map (·.1) ∧
      (∀ k ∈ (categorizeMachineCore ml amount).scores.map (·.1),
        (lookupScore (categorizeMachineCore ml amount).scores k).getD 0 ≤
          (lookupScore (categorizeMachineCore ml amount).scores best).getD 0) ∧
      (categorizeMachineCore ml amount).category =
        (if (3/10 : ℚ) < (lookupScore (categorizeMachineCore ml amount).scores best).getD 0
         then best else ml.category)) := by
  have hscores : (categorizeMachineCore ml amount).scores =
      combineScores ml.scores (categorizeByAmount amount) := rfl
  constructor
  · intro c
    rw [hscores,
      lookupScore_combineScores (categorizeByAmount amount) ml.scores c
        (categorizeByAmount_nodup amount)]
    cases hh : lookupScore (categorizeByAmount amount) c with
    | none => rfl
    | some h =>
      cases hs : lookupScore ml.scores c with
      | none => rfl
      | some s =>
        dsimp only
        by_cases hz : s ≠ 0
        · rw [if_pos hz]
        · rw [if_neg hz]
          push_neg at hz
          subst hz
          congr 1
          ring
  · obtain ⟨k0, h0, hk0, hk0pos⟩ := categorizeByAmount_pos amount
    have hcomb := lookupScore_combineScores (categorizeByAmount amount) ml.scores k0
      (categorizeByAmount_nodup amount)
    rw [hk0] at hcomb
    have hv0 : ∃ v0, lookupScore (combineScores ml.scores (categorizeByAmount amount)) k0 =
        some v0 ∧ 0 < v0 := by
      cases hs : lookupScore ml.scores k0 with
      | none =>
        rw [hs] at hcomb
        exact ⟨h0 * (1/2), hcomb, by linarith⟩
      | some s =>
        rw [hs] at hcomb
        dsimp only at hcomb
        by_cases hz : s ≠ 0
        · rw [if_pos hz] at hcomb
          have hs0 : 0 ≤ s := hpos k0 s hs
          exact ⟨(s + h0) / 2, hcomb, by linarith⟩
        · rw [if_neg hz] at hcomb
          exact ⟨h0 * (1/2), hcomb, by linarith⟩
    obtain ⟨v0, hv0eq, hv0pos⟩ := hv0
    have hk0mem : k0 ∈ (combineScores ml.scores (categorizeByAmount amount)).map (·.1) :=
      mem_of_lookupScore hv0eq
    rw [hscores]
    cases hkeys : (combineScores ml.scores (categorizeByAmount amount)).map (·.1) with
    | nil =>
      rw [hkeys] at hk0mem
      simp at hk0mem
    | cons k ks =>
      obtain ⟨hbmem, hbmax, _⟩ := argmaxKey_spec
        (fun x => (lookupScore (combineScores ml.scores (categorizeByAmount amount)) x).getD 0)
        k ks
      rw [hkeys] at hk0mem
      have hballmem : argmaxKey
          (fun x => (lookupScore (combineScores ml.scores (categorizeByAmount amount)) x).getD 0)
          (k :: ks) ∈ (combineScores ml.scores (categorizeByAmount amount)).map (·.1) := by
        rw [hkeys]
        exact hbmem
      obtain ⟨vb, hvb⟩ := lookupScore_of_mem hballmem
      have hvbpos : 0 < vb := by
        have h1 := hbmax k0 hk0mem
        rw [hv0eq, hvb] at h1
        simpa using lt_of_lt_of_le hv0pos h1
      refine ⟨argmaxKey
        (fun x => (lookupScore (combineScores ml.scores (categorizeByAmount amount)) x).getD 0)
        (k :: ks), ?_, ?_, ?_⟩
      · exact hbmem
      · exact hbmax
      · have hcat : (categorizeMachineCore ml amount).category =
            (if (match lookupScore (combineScores ml.scores (categorizeByAmount amount))
                  (argmaxKey (fun x => (lookupScore
                    (combineScores ml.scores (categorizeByAmount amount)) x).getD 0)
                    ((combineScores ml.scores (categorizeByAmount amount)).map (·.1))) with
                | some v => if v ≠ 0 then v else ml.confidence
                | none => ml.confidence) > (3/10 : ℚ) then
              argmaxKey (fun x => (lookupScore
                (combineScores ml.scores (categorizeByAmount amount)) x).getD 0)
                ((combineScores ml.scores (categorizeByAmount amount)).map (·.1))
             else ml.category) := rfl
        rw [hcat, hkeys, hvb]
        dsimp only
        rw [if_pos (ne_of_gt hvbpos)]
        rfl

/-- C3 witness: with step-1/2 scores `{meals: 1/2}` and amount 50, the
combined `meals` score is the average of score 1/2 and hint 4/10. -/
theorem C3_blend_threshold_witness :
    lookupScore (categorizeMachineCore mlW3 50).scores "meals" = some ((1/2 + 4/10) / 2) := by
  have hp : ∀ c v, lookupScore mlW3.scores c = some v → 0 ≤ v := by
    intro c v h
    simp only [mlW3, lookupScore] at h
    split at h
    · simp only [Option.some.injEq] at h
      rw [← h]
      norm_num
    · simp at h
  have h := (C3_blend_threshold mlW3 50 hp).1 "meals"
  rw [h]
  have h20 : ¬ ((50 : ℚ) < 20) := by norm_num
  have h100 : (50 : ℚ) < 100 := by norm_num
  simp [categorizeByAmount, lookupScore, mlW3, h20, h100]

/-- Rule scores of the scenario input `{title: "Team Lunch", vendor:
"Restaurante Central"}`: `meals` scores 2 keyword hits out of 14
(`lunch`, and `restaurant` inside `restaurante`), every other category
scores 0. -/
theorem ruleScores_team_lunch :
    ruleScores "Team Lunch" "" "Restaurante Central" =
      [("meals", 1/7), ("transportation", 0), ("accommodation", 0),
       ("office_supplies", 0), ("software", 0), ("training", 0),
       ("marketing", 0), ("travel", 0)] := by
  have h1 : (List.filter (fun kw => strContains (ruleText "Team Lunch" "" "Restaurante Central") kw)
      ["restaurant", "food", "lunch", "dinner", "breakfast", "cafe", "coffee",
       "pizza", "burger", "sushi", "delivery", "takeout", "meal", "dining"]).length = 2 := by
    decide
  have h2 : (List.filter (fun kw => strContains (ruleText "Team Lunch" "" "Restaurante Central") kw)
      ["uber", "lyft", "taxi", "bus", "train", "subway", "metro", "airline",
       "flight", "car rental", "parking", "toll", "gas", "fuel", "mileage"]).length = 0 := by
    decide
  have h3 : (List.filter (fun kw => strContains (ruleText "Team Lunch" "" "Restaurante Central") kw)
      ["hotel", "motel", "inn", "resort", "airbnb", "booking", "lodging",
       "accommodation", "stay", "room", "suite"]).length = 0 := by
    decide
  have h4 : (List.filter (fun kw => strContains (ruleText "Team Lunch" "" "Restaurante Central") kw)
      ["staples", "office", "supplies", "paper", "pen", "pencil", "notebook",
       "folder", "binder", "printer", "ink", "toner", "desk", "chair"]).length = 0 := by
    decide
  have h5 : (List.filter (fun kw => strContains (ruleText "Team Lunch" "" "Restaurante Central") kw)
      ["software", "app", "subscription", "license", "saas", "cloud", "microsoft",
       "adobe", "google", "zoom", "slack", "github", "aws", "digital"]).length = 0 := by
    decide
  have h6 : (List.filter (fun kw => strContains (ruleText "Team Lunch" "" "Restaurante Central") kw)
      ["course", "training", "workshop", "seminar", "conference", "education",
       "learning", "certification", "udemy", "coursera", "book", "tutorial"]).length = 0 := by
    decide
  have h7 : (List.filter (fun kw => strContains (ruleText "Team Lunch" "" "Restaurante Central") kw)
      ["advertising", "marketing", "promotion", "social media", "facebook",
       "google ads", "linkedin", "campaign", "branding", "design"]).length = 0 := by
    decide
  have h8 : (List.filter (fun kw => strContains (ruleText "Team Lunch" "" "Restaurante Central") kw)
      ["travel", "trip", "business trip", "visa", "passport", "insurance",
       "luggage", "baggage", "airport", "terminal"]).length = 0 := by
    decide
  simp only [ruleScores, categoryRules, List.map_cons, List.map_nil, h1, h2, h3, h4, h5, h6, h7, h8]
  norm_num

/-- The full rule-based outcome of the scenario input: `meals` wins with
confidence 1/7. -/
theorem categorizeByRules_team_lunch :
    categorizeByRules "Team Lunch" "" "Restaurante Central" =
      { category := "meals", confidence := 1/7, method := "rule-based",
        scores := [("meals", 1/7), ("transportation", 0), ("accommodation", 0),
          ("office_supplies", 0), ("software", 0), ("training", 0),
          ("marketing", 0), ("travel", 0)] } := by
  simp only [categorizeByRules, ruleScores_team_lunch]
  simp [argmaxKey, lookupScore, List.foldl_cons, List.foldl_nil, List.map_cons, List.map_nil]

/-- The amount hints for the scenario amount 85.50 (the 20-100 bucket). -/
theorem categorizeByAmount_team_lunch :
    categorizeByAmount (171/2) =
      [("meals", 4/10), ("transportation", 3/10), ("office_supplies", 1/10)] := by
  have h20 : ¬ ((171 : ℚ)/2 < 20) := by norm_num
  have h100 : (171 : ℚ)/2 < 100 := by norm_num
  simp [categorizeByAmount, h20, h100]

/-- The blended scores of the scenario: `meals` averages to 19/70, the
zero-scored hint categories take half their hints. -/
theorem combineScores_team_lunch :
    combineScores
      [("meals", 1/7), ("transportation", 0), ("accommodation", 0),
       ("office_supplies", 0), ("software", 0), ("training", 0),
       ("marketing", 0), ("travel", 0)]
      [("meals", 4/10), ("transportation", 3/10), ("office_supplies", 1/10)] =
      [("meals", 19/70), ("transportation", 3/20), ("accommodation", 0),
       ("office_supplies", 1/20), ("software", 0), ("training", 0),
       ("marketing", 0), ("travel", 0)] := by
  have h17 : ((1 : ℚ)/7) ≠ 0 := by norm_num
  simp [combineScores, combineOne, lookupScore, setScore, List.foldl_cons, List.foldl_nil, h17]
  norm_num

/-- The final categorization of the scenario: the rule path wins `meals`
with 1/7, blending with the 0.4 hint yields 19/70, which does not exceed
the 0.3 threshold, so the code falls back to the rule category `meals`
with confidence 19/70. -/
theorem categorizeMachineCore_team_lunch :
    (categorizeMachineCore (categorizeByRules "Team Lunch" "" "Restaurante Central")
        (171/2)).category = "meals" ∧
    (categorizeMachineCore (categorizeByRules "Team Lunch" "" "Restaurante Central")
        (171/2)).confidence = 19/70 := by
  have hstep : categorizeMachineCore (categorizeByRules "Team Lunch" "" "Restaurante Central")
      (171/2) =
      { category := "meals", confidence := 19/70, method := "rule-based",
        scores := [("meals", 19/70), ("transportation", 3/20), ("accommodation", 0),
          ("office_supplies", 1/20), ("software", 0), ("training", 0),
          ("marketing", 0), ("travel", 0)] } := by
    simp only [categorizeMachineCore, categorizeByRules_team_lunch,
      categorizeByAmount_team_lunch, combineScores_team_lunch]
    have hth : ¬ ((3 : ℚ)/10 < 19/70) := by norm_num
    simp [argmaxKey, lookupScore, List.foldl_cons, List.foldl_nil, List.map_cons, List.map_nil,
      hth]
    norm_num
  rw [hstep]
  exact ⟨rfl, rfl⟩

/-- C5 (amended): for `{title: "Team Lunch", vendor: "Restaurante
Central", amount: 85.50}` with the remote classifier unreachable (the
rule-based fallback supplies the step-1/2 result), the classifier indeed
returns final category `meals`, but with confidence 19/70 ~ 0.271: the
combined best score does *not* exceed the 0.3 threshold, `meals` is
reached through the fallback-to-rule-category branch, and the claimed
`confidence > 0.3` is false. -/
theorem C5_team_lunch :
    (categorizeMachineCore (categorizeByRules "Team Lunch" "" "Restaurante Central")
        (171/2)).category = "meals" ∧
    (categorizeMachineCore (categorizeByRules "Team Lunch" "" "Restaurante Central")
        (171/2)).confidence = 19/70 ∧
    ¬ ((3/10 : ℚ) < (categorizeMachineCore (categorizeByRules "Team Lunch" "" "Restaurante Central")
        (171/2)).confidence) := by
  obtain ⟨h1, h2⟩ := categorizeMachineCore_team_lunch
  refine ⟨h1, h2, ?_⟩
  rw [h2]
  norm_num

/-- C5 counterexample: the original claim (final category `meals` *and*
confidence strictly greater than 0.3) is false on this input — the
computed confidence is 19/70 < 3/10. -/
theorem C5_team_lunch_cex :
    ¬ ((categorizeMachineCore (categorizeByRules "Team Lunch" "" "Restaurante Central")
          (171/2)).category = "meals" ∧
       (3/10 : ℚ) < (categorizeMachineCore (categorizeByRules "Team Lunch" "" "Restaurante Central")
          (171/2)).confidence) := by
  obtain ⟨_, h2⟩ := categorizeMachineCore_team_lunch
  intro hcl
  rw [h2] at hcl
  norm_num at hcl

/-- An `UPDATE ... WHERE id = i` commutes with `SELECT ... WHERE id = i`
when the update preserves the id column. -/
theorem find?_update_id (l : List Expense) (i : Nat) (g : Expense → Expense)
    (hg : ∀ x, (g x).id = x.id) :
    (l.map (fun e => if e.id = i then g e else e)).find? (fun e => decide (e.id = i)) =
      (l.find? (fun e => decide (e.id = i))).map g := by
  induction l with
  | nil => rfl
  | cons e es ih =>
    by_cases he : e.id = i
    · rw [List.map_cons, if_pos he]
      rw [List.find?_cons_of_pos _ (by simp [hg, he]), List.find?_cons_of_pos _ (by simp [he])]
      rfl
    · rw [List.map_cons, if_neg he]
      rw [List.find?_cons_of_neg _ (by simp [he]), List.find?_cons_of_neg _ (by simp [he])]
      exact ih

/-- `expenseById` after `updateExpense` on the same id reads back the
updated row. -/
theorem expenseById_updateExpense (db : Db) (i : Nat) (g : Expense → Expense)
    (hg : ∀ x, (g x).id = x.id) :
    expenseById (updateExpense db i g) i = (expenseById db i).map g :=
  find?_update_id db.expenses i g hg

/-- An `UPDATE ocr_queue ... WHERE expense_id = i` commutes with reading
the first queue row of that expense when the update preserves the
expense id. -/
theorem find?_update_jobs (l : List OcrJob) (i : Nat) (g : OcrJob → OcrJob)
    (hg : ∀ x, (g x).expenseId = x.expenseId) :
    (l.map (fun j => if j.expenseId = i then g j else j)).find?
        (fun j => decide (j.expenseId = i)) =
      (l.find? (fun j => decide (j.expenseId = i))).map g := by
  induction l with
  | nil => rfl
  | cons j js ih =>
    by_cases hj : j.expenseId = i
    · rw [List.map_cons, if_pos hj]
      rw [List.find?_cons_of_pos _ (by simp [hg, hj]), List.find?_cons_of_pos _ (by simp [hj])]
      rfl
    · rw [List.map_cons, if_neg hj]
      rw [List.find?_cons_of_neg _ (by simp [hj]), List.find?_cons_of_neg _ (by simp [hj])]
      exact ih

/-- C1 (amended): every lifecycle transition attempted from a status other
than its required source (draft for submit; pending for approve, reject,
request-changes; approved for reimburse) fails with a 400 error whose
message names the required status — but not the actual one — and performs
no write at all (the handler returns before its transaction); when the
status matches (and the operation's own validation inputs are present: a
non-blank reason/message, an available approver), the status mutation,
the appended audit entry and the appended notification (plus the comment
row for request-changes) are written together in the one transaction. -/
theorem C1_lifecycle_guards :
    (∀ (db : Db) (actor : User) (i rand : Nat) (now : Int) (e : Expense),
      expenseOwned db actor.id i = some e → e.status ≠ Status.draft →
      submitExpense db actor i rand now =
        .error ⟨"Can only submit expenses in draft status", 400⟩) ∧
    (∀ (db : Db) (actor : User) (i rand : Nat) (now : Int) (e : Expense) (ap : User),
      expenseOwned db actor.id i = some e → e.status = Status.draft →
      pickApprover db rand = some ap →
      ∃ db', submitExpense db actor i rand now = .ok db' ∧
        db'.auditLog = db.auditLog ++
          [⟨i, actor.id, "submitted", some Status.draft, some Status.pending,
            "Expense submitted for approval"⟩] ∧
        db'.notifications = db.notifications ++
          [⟨ap.id, "New expense requires approval",
            actor.firstName ++ " " ++ actor.lastName ++ " submitted an expense for " ++
              e.currency ++ " " ++ toString e.amount, "approval_request", some i⟩] ∧
        expenseById db' i = (expenseById db i).map (fun x =>
          { x with status := Status.pending, approverId := some ap.id, updatedAt := now })) ∧
    (∀ (db : Db) (actor : User) (notes : Option String) (i : Nat) (now : Int) (e : Expense),
      expenseById db i = some e → e.status ≠ Status.pending →
      approveExpense db actor notes i now =
        .error ⟨"Can only approve pending expenses", 400⟩) ∧
    (∀ (db : Db) (actor : User) (notes : Option String) (i : Nat) (now : Int) (e : Expense),
      expenseById db i = some e → e.status = Status.pending →
      ∃ db', approveExpense db actor notes i now = .ok db' ∧
        db'.auditLog = db.auditLog ++
          [⟨i, actor.id, "approved", some Status.pending, some Status.approved,
            notes.getD "Expense approved"⟩] ∧
        db'.notifications = db.notifications ++
          [⟨e.userId, "Expense approved",
            "Your expense " ++ e.title ++ " has been approved by " ++
              actor.firstName ++ " " ++ actor.lastName, "expense_approved", some i⟩] ∧
        expenseById db' i = (expenseById db i).map (fun x =>
          { x with status := Status.approved, approverId := some actor.id,
                   approvedAt := some now, approvalNotes := notes, updatedAt := now })) ∧
    (∀ (db : Db) (actor : User) (reason : String) (i : Nat) (now : Int) (e : Expense),
      String.mk (trimChars reason.toList) ≠ "" →
      expenseById db i = some e → e.status ≠ Status.pending →
      rejectExpense db actor reason i now =
        .error ⟨"Can only reject pending expenses", 400⟩) ∧
    (∀ (db : Db) (actor : User) (reason : String) (i : Nat) (now : Int) (e : Expense),
      String.mk (trimChars reason.toList) ≠ "" →
      expenseById db i = some e → e.status = Status.pending →
      ∃ db', rejectExpense db actor reason i now = .ok db' ∧
        db'.auditLog = db.auditLog ++
          [⟨i, actor.id, "rejected", some Status.pending, some Status.rejected, reason⟩] ∧
        db'.notifications = db.notifications ++
          [⟨e.userId, "Expense rejected",
            "Your expense " ++ e.title ++ " has been rejected by " ++
              actor.firstName ++ " " ++ actor.lastName, "expense_rejected", some i⟩] ∧
        expenseById db' i = (expenseById db i).map (fun x =>
          { x with status := Status.rejected, approverId := some actor.id,
                   rejectedAt := some now, approvalNotes := some reason, updatedAt := now })) ∧
    (∀ (db : Db) (actor : User) (message : String) (i : Nat) (now : Int) (e : Expense),
      String.mk (trimChars message.toList) ≠ "" →
      expenseById db i = some e → e.status ≠ Status.pending →
      requestChangesExpense db actor message i now =
        .error ⟨"Can only request changes for pending expenses", 400⟩) ∧
    (∀ (db : Db) (actor : User) (message : String) (i : Nat) (now : Int) (e : Expense),
      String.mk (trimChars message.toList) ≠ "" →
      expenseById db i = some e → e.status = Status.pending →
      ∃ db', requestChangesExpense db actor message i now = .ok db' ∧
        db'.auditLog = db.auditLog ++
          [⟨i, actor.id, "changes_requested", some Status.pending,
            some Status.changes_requested, message⟩] ∧
        db'.notifications = db.notifications ++
          [⟨e.userId, "Changes requested for expense",
            actor.firstName ++ " " ++ actor.lastName ++
              " has requested changes to your expense " ++ e.title,
            "changes_requested", some i⟩] ∧
        db'.comments = db.comments ++ [⟨i, actor.id, message, false⟩] ∧
        expenseById db' i = (expenseById db i).map (fun x =>
          { x with status := Status.changes_requested, approverId := some actor.id,
                   approvalNotes := some message, updatedAt := now })) ∧
    (∀ (db : Db) (actor : User) (notes : Option String) (i : Nat) (now : Int) (e : Expense),
      expenseById db i = some e → e.status ≠ Status.approved →
      reimburseExpense db actor notes i now =
        .error ⟨"Can only reimburse approved expenses", 400⟩) ∧
    (∀ (db : Db) (actor : User) (notes : Option String) (i : Nat) (now : Int) (e : Expense),
      expenseById db i = some e → e.status = Status.approved →
      ∃ db', reimburseExpense db actor notes i now = .ok db' ∧
        db'.auditLog = db.auditLog ++
          [⟨i, actor.id, "reimbursed", some Status.approved, some Status.reimbursed,
            notes.getD "Expense reimbursed"⟩] ∧
        db'.notifications = db.notifications ++
          [⟨e.userId, "Expense reimbursed",
            "Your expense " ++ e.title ++ " has been reimbursed",
            "expense_reimbursed", some i⟩] ∧
        expenseById db' i = (expenseById db i).map (fun x =>
          { x with status := Status.reimbursed, reimbursedAt := some now,
                   updatedAt := now })) := by
  refine ⟨?_, ?_, ?_, ?_, ?_, ?_, ?_, ?_, ?_, ?_⟩
  · intro db actor i rand now e hfind hst
    unfold submitExpense
    rw [hfind]
    dsimp only
    rw [if_pos hst]
  · intro db actor i rand now e ap hfind hst hpick
    unfold submitExpense
    rw [hfind]
    dsimp only
    rw [if_neg (fun hh => hh hst), hpick]
    dsimp only
    exact ⟨_, rfl, rfl, rfl, expenseById_updateExpense db i (fun x =>
      { x with status := Status.pending, approverId := some ap.id, updatedAt := now })
      (fun x => rfl)⟩
  · intro db actor notes i now e hfind hst
    unfold approveExpense
    rw [hfind]
    dsimp only
    rw [if_pos hst]
  · intro db actor notes i now e hfind hst
    unfold approveExpense
    rw [hfind]
    dsimp only
    rw [if_neg (fun hh => hh hst)]
    refine ⟨_, rfl, rfl, rfl, ?_⟩
    rw [← hfind]
    exact expenseById_updateExpense db i (fun x =>
      { x with status := Status.approved, approverId := some actor.id,
               approvedAt := some now, approvalNotes := notes, updatedAt := now })
      (fun x => rfl)
  · intro db actor reason i now e hr hfind hst
    unfold rejectExpense
    rw [if_neg hr, hfind]
    dsimp only
    rw [if_pos hst]
  · intro db actor reason i now e hr hfind hst
    unfold rejectExpense
    rw [if_neg hr, hfind]
    dsimp only
    rw [if_neg (fun hh => hh hst)]
    refine ⟨_, rfl, rfl, rfl, ?_⟩
    rw [← hfind]
    exact expenseById_updateExpense db i (fun x =>
      { x with status := Status.rejected, approverId := some actor.id,
               rejectedAt := some now, approvalNotes := some reason, updatedAt := now })
      (fun x => rfl)
  · intro db actor message i now e hr hfind hst
    unfold requestChangesExpense
    rw [if_neg hr, hfind]
    dsimp only
    rw [if_pos hst]
  · intro db actor message i now e hr hfind hst
    unfold requestChangesExpense
    rw [if_neg hr, hfind]
    dsimp only
    rw [if_neg (fun hh => hh hst)]
    refine ⟨_, rfl, rfl, rfl, rfl, ?_⟩
    rw [← hfind]
    exact expenseById_updateExpense db i (fun x =>
      { x with status := Status.changes_requested, approverId := some actor.id,
               approvalNotes := some message, updatedAt := now })
      (fun x => rfl)
  · intro db actor notes i now e hfind hst
    unfold reimburseExpense
    rw [hfind]
    dsimp only
    rw [if_pos hst]
  · intro db actor notes i now e hfind hst
    unfold reimburseExpense
    rw [hfind]
    dsimp only
    rw [if_neg (fun hh => hh hst)]
    refine ⟨_, rfl, rfl, rfl, ?_⟩
    rw [← hfind]
    exact expenseById_updateExpense db i (fun x =>
      { x with status := Status.reimbursed, reimbursedAt := some now, updatedAt := now })
      (fun x => rfl)

/-- C1 counterexample: approving a `draft` expense fails with the 400
error `"Can only approve pending expenses"`, whose message contains the
expected status `pending` but not the actual status `draft` — so the
error does not name the actual status, contrary to the claim. -/
theorem C1_lifecycle_guards_cex :
    approveExpense dbDraft admU none 1 0 =
      Except.error ⟨"Can only approve pending expenses", 400⟩ ∧
    strContains "Can only approve pending expenses" (statusName Status.pending) = true ∧
    strContains "Can only approve pending expenses" (statusName Status.draft) = false := by
  refine ⟨rfl, by decide, by decide⟩

/-- C1 witness: all ten guard/success branches exercised on concrete
stores (expense 1 in draft, pending and approved states). -/
theorem C1_lifecycle_guards_witness :
    (submitExpense dbPending empU 1 0 0 =
      .error ⟨"Can only submit expenses in draft status", 400⟩) ∧
    (∃ db', submitExpense dbDraft empU 1 0 0 = .ok db' ∧
      db'.auditLog = dbDraft.auditLog ++
        [⟨1, empU.id, "submitted", some Status.draft, some Status.pending,
          "Expense submitted for approval"⟩] ∧
      db'.notifications = dbDraft.notifications ++
        [⟨admU.id, "New expense requires approval",
          empU.firstName ++ " " ++ empU.lastName ++ " submitted an expense for " ++
            baseExpense.currency ++ " " ++ toString baseExpense.amount,
          "approval_request", some 1⟩] ∧
      expenseById db' 1 = (expenseById dbDraft 1).map (fun x =>
        { x with status := Status.pending, approverId := some admU.id, updatedAt := 0 })) ∧
    (approveExpense dbDraft admU none 1 0 =
      .error ⟨"Can only approve pending expenses", 400⟩) ∧
    (∃ db', approveExpense dbPending admU none 1 0 = .ok db') ∧
    (rejectExpense dbDraft admU "bad receipt" 1 0 =
      .error ⟨"Can only reject pending expenses", 400⟩) ∧
    (∃ db', rejectExpense dbPending admU "bad receipt" 1 0 = .ok db') ∧
    (requestChangesExpense dbDraft admU "add receipt" 1 0 =
      .error ⟨"Can only request changes for pending expenses", 400⟩) ∧
    (∃ db', requestChangesExpense dbPending admU "add receipt" 1 0 = .ok db') ∧
    (reimburseExpense dbPending admU none 1 0 =
      .error ⟨"Can only reimburse approved expenses", 400⟩) ∧
    (∃ db', reimburseExpense dbApproved admU none 1 0 = .ok db') := by
  obtain ⟨s1, s2, a1, a2, r1, r2, c1, c2, m1, m2⟩ := C1_lifecycle_guards
  refine ⟨?_, ?_, ?_, ?_, ?_, ?_, ?_, ?_, ?_, ?_⟩
  · exact s1 dbPending empU 1 0 0 { baseExpense with status := Status.pending } rfl (by decide)
  · exact s2 dbDraft empU 1 0 0 baseExpense admU rfl rfl rfl
  · exact a1 dbDraft admU none 1 0 baseExpense rfl (by decide)
  · obtain ⟨db', h, -, -, -⟩ :=
      a2 dbPending admU none 1 0 { baseExpense with status := Status.pending } rfl rfl
    exact ⟨db', h⟩
  · exact r1 dbDraft admU "bad receipt" 1 0 baseExpense (by decide) rfl (by decide)
  · obtain ⟨db', h, -, -, -⟩ :=
      r2 dbPending admU "bad receipt" 1 0 { baseExpense with status := Status.pending }
        (by decide) rfl rfl
    exact ⟨db', h⟩
  · exact c1 dbDraft admU "add receipt" 1 0 baseExpense (by decide) rfl (by decide)
  · obtain ⟨db', h, -, -, -, -⟩ :=
      c2 dbPending admU "add receipt" 1 0 { baseExpense with status := Status.pending }
        (by decide) rfl rfl
    exact ⟨db', h⟩
  · exact m1 dbPending admU none 1 0 { baseExpense with status := Status.pending } rfl (by decide)
  · obtain ⟨db', h, -, -, -⟩ :=
      m2 dbApproved admU none 1 0 { baseExpense with status := Status.approved } rfl rfl
    exact ⟨db', h⟩

/-- Reading the queue row back after `updateJobs` on the same expense id. -/
theorem jobById_updateJobs (db : Db) (i : Nat) (g : OcrJob → OcrJob)
    (hg : ∀ x, (g x).expenseId = x.expenseId) :
    jobById (updateJobs db i g) i = (jobById db i).map g :=
  find?_update_jobs db.ocrQueue i g hg

/-- Expense updates do not touch the queue. -/
theorem jobById_updateExpense (db : Db) (i j : Nat) (g : Expense → Expense) :
    jobById (updateExpense db i g) j = jobById db j := rfl

/-- Queue updates do not touch the expenses. -/
theorem expenseById_updateJobs (db : Db) (i j : Nat) (g : OcrJob → OcrJob) :
    expenseById (updateJobs db i g) j = expenseById db j := rfl

/-- C2 (amended): when extraction fails, `processReceiptOCR` sets the
expense's `ocrStatus` to `failed`, sets the queue row to `failed` with the
error message recorded, increments `attempts` by exactly one and stamps
`processedAt` — but it appends *no* failure audit entry (the audit log is
untouched) and it *re-throws*: the error reaches the caller (route
callers attach a `.catch`, so the triggering request still succeeds). -/
theorem C2_ocr_failure (prims : JsPrims) (db : Db) (i : Nat) (url msg : String) (now : Int) :
    (processReceiptOCR prims db i url (Except.error msg) now).2 = Except.error msg ∧
    (processReceiptOCR prims db i url (Except.error msg) now).1.auditLog = db.auditLog ∧
    jobById (processReceiptOCR prims db i url (Except.error msg) now).1 i =
      (jobById db i).map (fun j =>
        { j with status := OcrStatus.failed, errorMessage := some msg,
                 attempts := j.attempts + 1, processedAt := some now }) ∧
    expenseById (processReceiptOCR prims db i url (Except.error msg) now).1 i =
      (expenseById db i).map (fun e => { e with ocrStatus := OcrStatus.failed }) := by
  refine ⟨rfl, rfl, ?_, ?_⟩
  · simp only [processReceiptOCR]
    rw [jobById_updateJobs, jobById_updateExpense, jobById_updateJobs, jobById_updateExpense,
      Option.map_map]
    · cases jobById db i <;> rfl
    all_goals exact fun x => rfl
  · simp only [processReceiptOCR]
    rw [expenseById_updateJobs, expenseById_updateExpense, expenseById_updateJobs,
      expenseById_updateExpense, Option.map_map]
    · cases expenseById db i <;> rfl
    all_goals exact fun x => rfl

/-- C2 counterexample: on the concrete store `dbC2` a network-timeout
extraction failure makes `processReceiptOCR` return the error to its
caller and leaves the audit log without any failure entry, contradicting
the claimed "appends a failure AuditEntry ... the caller never sees an
exception". -/
theorem C2_ocr_failure_cex :
    (processReceiptOCR primsNone dbC2 1 "file://receipts/2/r.png"
        (Except.error "network timeout") 5).2 = Except.error "network timeout" ∧
    (processReceiptOCR primsNone dbC2 1 "file://receipts/2/r.png"
        (Except.error "network timeout") 5).1.auditLog = dbC2.auditLog :=
  ⟨rfl, rfl⟩

/-- C6: one retry sweep invokes extraction for at most 10 jobs; every
invoked job comes from the queue with `status = failed`,
`attempts < maxAttempts` and a creation time inside the 24-hour window
(so never a job at its attempt cap, and never one currently
`processing`); the invocations are ordered oldest first; and every
eligible queue job is part of the sweep's ordered selection before the
batch limit is applied. -/
theorem C6_retry_sweep (db : Db) (now : Int) :
    (retrySweepRun db now).length ≤ 10 ∧
    (∀ j ∈ retrySweepRun db now, j ∈ db.ocrQueue ∧ j.status = OcrStatus.failed ∧
      j.attempts < j.maxAttempts ∧ now - ocrRetryWindow < j.createdAt) ∧
    (retrySweepRun db now).Pairwise (fun a b => a.createdAt ≤ b.createdAt) ∧
    (∀ j ∈ retrySweepRun db now,
      ¬ (j.maxAttempts ≤ j.attempts) ∧ j.status ≠ OcrStatus.processing) ∧
    (∀ j ∈ db.ocrQueue, j.status = OcrStatus.failed → j.attempts < j.maxAttempts →
      now - ocrRetryWindow < j.createdAt →
      j ∈ (db.ocrQueue.filter (retryEligible now)).mergeSort
        (fun a b => decide (a.createdAt ≤ b.createdAt))) := by
  have hfacts : ∀ j ∈ retrySweepRun db now, j ∈ db.ocrQueue ∧ j.status = OcrStatus.failed ∧
      j.attempts < j.maxAttempts ∧ now - ocrRetryWindow < j.createdAt := by
    intro j hj
    have hj1 : j ∈ retrySelection db now := List.mem_of_mem_filter hj
    have hj2 : j ∈ (db.ocrQueue.filter (retryEligible now)).mergeSort
        (fun a b => decide (a.createdAt ≤ b.createdAt)) :=
      List.take_subset _ _ hj1
    have hj3 : j ∈ db.ocrQueue.filter (retryEligible now) := List.mem_mergeSort.mp hj2
    obtain ⟨hmem, helig⟩ := List.mem_filter.mp hj3
    have hprop := of_decide_eq_true helig
    exact ⟨hmem, hprop.1, hprop.2.1, hprop.2.2⟩
  refine ⟨?_, hfacts, ?_, ?_, ?_⟩
  · calc (retrySweepRun db now).length
        ≤ (retrySelection db now).length := List.length_filter_le _ _
      _ ≤ 10 := by
          rw [retrySelection, List.length_take]
          exact min_le_left _ _
  · have htrans : ∀ a b c : OcrJob, decide (a.createdAt ≤ b.createdAt) →
        decide (b.createdAt ≤ c.createdAt) → decide (a.createdAt ≤ c.createdAt) := by
      intro a b c hab hbc
      exact decide_eq_true (le_trans (of_decide_eq_true hab) (of_decide_eq_true hbc))
    have htotal : ∀ a b : OcrJob,
        decide (a.createdAt ≤ b.createdAt) || decide (b.createdAt ≤ a.createdAt) := by
      intro a b
      rw [Bool.or_eq_true]
      rcases le_total a.createdAt b.createdAt with h | h
      · exact Or.inl (decide_eq_true h)
      · exact Or.inr (decide_eq_true h)
    have hsorted := List.sorted_mergeSort htrans htotal (db.ocrQueue.filter (retryEligible now))
    have hsub : List.Sublist (retrySweepRun db now)
        ((db.ocrQueue.filter (retryEligible now)).mergeSort
          (fun a b => decide (a.createdAt ≤ b.createdAt))) :=
      List.Sublist.trans (List.filter_sublist _) (List.take_sublist _ _)
    exact (hsorted.sublist hsub).imp (fun h => of_decide_eq_true h)
  · intro j hj
    obtain ⟨-, hst, hlt, -⟩ := hfacts j hj
    refine ⟨not_le.mpr hlt, ?_⟩
    rw [hst]
    decide
  · intro j hj h1 h2 h3
    exact List.mem_mergeSort.mpr (List.mem_filter.mpr ⟨hj, decide_eq_true ⟨h1, h2, h3⟩⟩)

/-- C6 witness: on the one-job store `db6` the sweep runs exactly the
eligible failed job, and the theorem's selection facts hold for it. -/
theorem C6_retry_sweep_witness :
    job6 ∈ db6.ocrQueue ∧ job6.status = OcrStatus.failed ∧
      job6.attempts < job6.maxAttempts ∧ (5 : Int) - ocrRetryWindow < job6.createdAt := by
  have hrun : retrySweepRun db6 5 = [job6] := by
    simp [retrySweepRun, retrySelection, retryEligible, db6, dbDraft, job6, List.mergeSort,
      expenseById, baseExpense, ocrRetryWindow]
  have h := (C6_retry_sweep db6 5).2.1 job6 (by rw [hrun]; exact List.mem_cons_self _ _)
  exact ⟨h.1, h.2.1, h.2.2.1, h.2.2.2⟩

/-- C7 (code defect): the conflict target `(expense_id)` of the
`INSERT INTO ocr_queue ... ON CONFLICT (expense_id) DO UPDATE` upsert in
`PUT /expenses/:id` matches no unique or exclusion constraint of the
`ocr_queue` table (`schema.sql` declares only the `id` primary key), so
PostgreSQL rejects the statement (error 42P10) on every execution: the
intended replace-and-reset-attempts semantics cannot happen. -/
theorem C7_upsert_conflict_target_unsupported :
    pgConflictTargetSupported ocrQueueUniqueTargets ocrUpsertConflictTarget = false := by
  decide

/-- C8: `feedbackLearning` never lets an error reach its caller (the
catch-all handler swallows every failure, including a missing expense and
a failed remote call), and when the expense carries no ML suggestion or a
suggestion equal to the correction, the call is a no-op: result state
unchanged — no audit entry — and no remote call made, regardless of the
remote endpoint's behaviour. -/
theorem C8_feedback_noop :
    (∀ (db : Db) (i : Nat) (corrected : String) (remote : Except String Unit),
      ∃ r, feedbackLearningRun db i corrected remote = .ok r) ∧
    (∀ (db : Db) (i : Nat) (corrected : String) (remote : Except String Unit) (e : Expense),
      expenseById db i = some e →
      (e.mlSuggestedCategory = none ∨ e.mlSuggestedCategory = some corrected) →
      feedbackLearningRun db i corrected remote = .ok (db, false)) := by
  constructor
  · intro db i corrected remote
    unfold feedbackLearningRun
    cases h : feedbackLearningInner db i corrected remote with
    | ok r => exact ⟨r, rfl⟩
    | error m => exact ⟨(db, false), rfl⟩
  · intro db i corrected remote e hfind hsugg
    unfold feedbackLearningRun feedbackLearningInner
    rw [hfind]
    dsimp only
    have hcond : ¬ (e.mlSuggestedCategory ≠ none ∧ e.mlSuggestedCategory ≠ some corrected) := by
      rcases hsugg with h | h
      · exact fun hh => hh.1 h
      · exact fun hh => hh.2 h
    rw [if_neg hcond]

/-- C8 witness: a correction equal to the stored suggestion is a no-op
even while the remote feedback endpoint is down. -/
theorem C8_feedback_noop_witness :
    feedbackLearningRun dbFb 1 "meals" (Except.error "remote down") = .ok (dbFb, false) :=
  C8_feedback_noop.2 dbFb 1 "meals" (Except.error "remote down")
    { baseExpense with mlSuggestedCategory := some "meals", mlConfidence := some (1/2) }
    rfl (Or.inr rfl)

/-- One key-value step never touches the `amount` field. -/
theorem applyKv_amount (p : JsPrims) (acc : Parsed) (kv : String × String) :
    (applyKv p acc kv).amount = acc.amount := by
  unfold applyKv
  repeat' split
  all_goals rfl

/-- One key-value step never touches the `vendor` field. -/
theorem applyKv_vendor (p : JsPrims) (acc : Parsed) (kv : String × String) :
    (applyKv p acc kv).vendor = acc.vendor := by
  unfold applyKv
  repeat' split
  all_goals rfl

/-- One key-value step never touches the `items` field. -/
theorem applyKv_items (p : JsPrims) (acc : Parsed) (kv : String × String) :
    (applyKv p acc kv).items = acc.items := by
  unfold applyKv
  repeat' split
  all_goals rfl

/-- One key-value step writes `total` exactly when the key contains
`total`/`amount` and the value parses. -/
theorem applyKv_total (p : JsPrims) (acc : Parsed) (kv : String × String) :
    (applyKv p acc kv).total =
      ((if strContains kv.1 "total" || strContains kv.1 "amount" then p.parseNum kv.2
        else none).orElse (fun _ => acc.total)) := by
  unfold applyKv
  repeat' split
  all_goals simp_all [Option.orElse]

/-- One key-value step overwrites `date` exactly when the key contains
`date`/`time` and the value parses. -/
theorem applyKv_date (p : JsPrims) (acc : Parsed) (kv : String × String) :
    (applyKv p acc kv).date =
      ((if strContains kv.1 "date" || strContains kv.1 "time" then p.parseDate kv.2
        else none).orElse (fun _ => acc.date)) := by
  unfold applyKv
  repeat' split
  all_goals simp_all [Option.orElse]

/-- The whole key-value loop: `amount`, `vendor` and `items` are
untouched; `total` and `date` end at the last successfully parsed
matching pair, falling back to the accumulator's value. -/
theorem foldl_applyKv_spec (p : JsPrims) (kvs : List (String × String)) :
    ∀ acc : Parsed,
      (kvs.foldl (applyKv p) acc).amount = acc.amount ∧
      (kvs.foldl (applyKv p) acc).vendor = acc.vendor ∧
      (kvs.foldl (applyKv p) acc).items = acc.items ∧
      (kvs.foldl (applyKv p) acc).total =
        ((kvs.filterMap (fun kv =>
          if strContains kv.1 "total" || strContains kv.1 "amount" then p.parseNum kv.2
          else none)).getLast?).orElse (fun _ => acc.total) ∧
      (kvs.foldl (applyKv p) acc).date =
        ((kvs.filterMap (fun kv =>
          if strContains kv.1 "date" || strContains kv.1 "time" then p.parseDate kv.2
          else none)).getLast?).orElse (fun _ => acc.date) := by
  induction kvs with
  | nil =>
    intro acc
    exact ⟨rfl, rfl, rfl, rfl, rfl⟩
  | cons kv rest ih =>
    intro acc
    obtain ⟨iha, ihv, ihi, iht, ihd⟩ := ih (applyKv p acc kv)
    rw [List.foldl_cons]
    refine ⟨iha.trans (applyKv_amount p acc kv), ihv.trans (applyKv_vendor p acc kv),
      ihi.trans (applyKv_items p acc kv), ?_, ?_⟩
    · rw [iht, applyKv_total, List.filterMap_cons]
      cases hkv : (if strContains kv.1 "total" || strContains kv.1 "amount" then p.parseNum kv.2
          else none) with
      | none =>
        rfl
      | some a =>
        cases hrest : rest.filterMap (fun kv =>
            if strContains kv.1 "total" || strContains kv.1 "amount" then p.parseNum kv.2
            else none) with
        | nil => rfl
        | cons y ys =>
          obtain ⟨z, hz⟩ := Option.isSome_iff_exists.mp
            (List.getLast?_isSome.mpr (List.cons_ne_nil y ys))
          dsimp only
          rw [List.getLast?_cons_cons, hz]
          rfl
    · rw [ihd, applyKv_date, List.filterMap_cons]
      cases hkv : (if strContains kv.1 "date" || strContains kv.1 "time" then p.parseDate kv.2
          else none) with
      | none =>
        rfl
      | some d =>
        cases hrest : rest.filterMap (fun kv =>
            if strContains kv.1 "date" || strContains kv.1 "time" then p.parseDate kv.2
            else none) with
        | nil => rfl
        | cons y ys =>
          obtain ⟨z, hz⟩ := Option.isSome_iff_exists.mp
            (List.getLast?_isSome.mpr (List.cons_ne_nil y ys))
          dsimp only
          rw [List.getLast?_cons_cons, hz]
          rfl

/-- C9 (amended): the receipt parser's `amount` field always equals the
free-text pattern match and is *never* overridden by key-value pairs; a
key containing `total`/`amount` writes its parsed value into the separate
`total` field (last matching pair wins); a key containing `date`/`time`
does override the pattern-matched `date` when its value parses (last
parseable pair wins, otherwise the pattern match stands); `vendor` is the
first non-blank line trimmed; `items` stays empty; unmatched fields stay
`null`, and the total parser cannot raise. -/
theorem C9_receipt_fields (p : JsPrims) (fullText : String) (kvs : List (String × String)) :
    (parseReceiptData p fullText kvs).amount = p.matchAmount fullText ∧
    (parseReceiptData p fullText kvs).total =
      (kvs.filterMap (fun kv =>
        if strContains kv.1 "total" || strContains kv.1 "amount" then p.parseNum kv.2
        else none)).getLast? ∧
    (parseReceiptData p fullText kvs).date =
      ((kvs.filterMap (fun kv =>
        if strContains kv.1 "date" || strContains kv.1 "time" then p.parseDate kv.2
        else none)).getLast?).orElse (fun _ => p.matchDate fullText) ∧
    (parseReceiptData p fullText kvs).vendor =
      ((fullText.toList.splitOn '\n').filter (fun l => !(trimChars l).isEmpty)).head?.map
        (fun l => String.mk (trimChars l)) ∧
    (parseReceiptData p fullText kvs).items = [] := by
  obtain ⟨ha, hv, hi, ht, hd⟩ := foldl_applyKv_spec p kvs
    { vendor := ((fullText.toList.splitOn '\n').filter
        (fun l => !(trimChars l).isEmpty)).head?.map (fun l => String.mk (trimChars l))
      amount := p.matchAmount fullText
      date := p.matchDate fullText
      items := []
      total := none }
  have horelse : ∀ o : Option ℚ, (o.orElse fun _ => (none : Option ℚ)) = o := by
    intro o
    cases o <;> rfl
  exact ⟨ha, ht.trans (horelse _), hd, hv, hi⟩

/-- C9 counterexample: for receipt text `"Cafe Bom"` (no digits, no
free-text amount match) with key-value pair `total: "99.00"`, the parser
leaves `amount` null and writes 99 into `total` — the key-value value
does not override the `amount` field as claimed. -/
theorem C9_receipt_fields_cex :
    (parseReceiptData prims9 "Cafe Bom" [("total", "99.00")]).amount = none ∧
    (parseReceiptData prims9 "Cafe Bom" [("total", "99.00")]).total = some 99 ∧
    ¬ ((parseReceiptData prims9 "Cafe Bom" [("total", "99.00")]).amount = some 99) := by
  refine ⟨rfl, rfl, ?_⟩
  intro h
  have h0 : (parseReceiptData prims9 "Cafe Bom" [("total", "99.00")]).amount = none := rfl
  rw [h0] at h
  exact Option.noConfusion h

/-- C10 (amended): every embedded operation except expense deletion only
appends to the audit log (each successful transition appends its entry;
OCR processing appends at most a completion entry; feedback appends at
most a feedback entry; failures leave the log unchanged) — but
`DELETE /expenses/:id` on a draft expense *deletes* that expense's audit
entries: its success leaves exactly the other expenses' entries. -/
theorem C10_audit_append_only :
    (∀ (db : Db) (actor : User) (i rand : Nat) (now : Int) (db' : Db),
      submitExpense db actor i rand now = .ok db' →
      ∃ t, db'.auditLog = db.auditLog ++ t) ∧
    (∀ (db : Db) (actor : User) (notes : Option String) (i : Nat) (now : Int) (db' : Db),
      approveExpense db actor notes i now = .ok db' →
      ∃ t, db'.auditLog = db.auditLog ++ t) ∧
    (∀ (db : Db) (actor : User) (reason : String) (i : Nat) (now : Int) (db' : Db),
      rejectExpense db actor reason i now = .ok db' →
      ∃ t, db'.auditLog = db.auditLog ++ t) ∧
    (∀ (db : Db) (actor : User) (message : String) (i : Nat) (now : Int) (db' : Db),
      requestChangesExpense db actor message i now = .ok db' →
      ∃ t, db'.auditLog = db.auditLog ++ t) ∧
    (∀ (db : Db) (actor : User) (notes : Option String) (i : Nat) (now : Int) (db' : Db),
      reimburseExpense db actor notes i now = .ok db' →
      ∃ t, db'.auditLog = db.auditLog ++ t) ∧
    (∀ (prims : JsPrims) (db : Db) (i : Nat) (url : String)
      (ext : Except String ExtractOut) (now : Int),
      ∃ t, (processReceiptOCR prims db i url ext now).1.auditLog = db.auditLog ++ t) ∧
    (∀ (db : Db) (i : Nat) (corrected : String) (remote : Except String Unit),
      ∃ r t, feedbackLearningRun db i corrected remote = .ok r ∧
        r.1.auditLog = db.auditLog ++ t) ∧
    (∀ (db : Db) (actor : User) (i : Nat) (db' : Db),
      deleteExpense db actor i = .ok db' →
      db'.auditLog = db.auditLog.filter (fun a => decide (a.expenseId ≠ i))) := by
  refine ⟨?_, ?_, ?_, ?_, ?_, ?_, ?_, ?_⟩
  · intro db actor i rand now db' h
    unfold submitExpense at h
    repeat' split at h
    all_goals try exact Except.noConfusion h
    all_goals try dsimp only at h
    all_goals simp only [Except.ok.injEq] at h
    all_goals subst h
    all_goals exact ⟨_, rfl⟩
  · intro db actor notes i now db' h
    unfold approveExpense at h
    repeat' split at h
    all_goals try exact Except.noConfusion h
    all_goals try dsimp only at h
    all_goals simp only [Except.ok.injEq] at h
    all_goals subst h
    all_goals exact ⟨_, rfl⟩
  · intro db actor reason i now db' h
    unfold rejectExpense at h
    repeat' split at h
    all_goals try exact Except.noConfusion h
    all_goals try dsimp only at h
    all_goals simp only [Except.ok.injEq] at h
    all_goals subst h
    all_goals exact ⟨_, rfl⟩
  · intro db actor message i now db' h
    unfold requestChangesExpense at h
    repeat' split at h
    all_goals try exact Except.noConfusion h
    all_goals try dsimp only at h
    all_goals simp only [Except.ok.injEq] at h
    all_goals subst h
    all_goals exact ⟨_, rfl⟩
  · intro db actor notes i now db' h
    unfold reimburseExpense at h
    repeat' split at h
    all_goals try exact Except.noConfusion h
    all_goals try dsimp only at h
    all_goals simp only [Except.ok.injEq] at h
    all_goals subst h
    all_goals exact ⟨_, rfl⟩
  · intro prims db i url ext now
    cases ext with
    | error msg => exact ⟨[], by simp only [List.append_nil]; try rfl⟩
    | ok ocr =>
      simp only [processReceiptOCR]
      split
      · exact ⟨_, rfl⟩
      · exact ⟨[], by simp only [List.append_nil]; try rfl⟩
  · intro db i corrected remote
    unfold feedbackLearningRun feedbackLearningInner
    cases hfind : expenseById db i with
    | none => exact ⟨(db, false), [], rfl, by simp only [List.append_nil]; try rfl⟩
    | some e =>
      dsimp only
      by_cases hc : e.mlSuggestedCategory ≠ none ∧ e.mlSuggestedCategory ≠ some corrected
      · rw [if_pos hc]
        cases remote with
        | error m => exact ⟨(db, false), [], rfl, by simp only [List.append_nil]; try rfl⟩
        | ok u => exact ⟨_, _, rfl, rfl⟩
      · rw [if_neg hc]
        exact ⟨(db, false), [], rfl, by simp only [List.append_nil]; try rfl⟩
  · intro db actor i db' h
    unfold deleteExpense at h
    repeat' split at h
    all_goals try exact Except.noConfusion h
    all_goals simp only [Except.ok.injEq] at h
    all_goals subst h
    all_goals rfl

/-- C10 counterexample: deleting the draft expense 1 (which has one audit
entry, its creation record) removes that audit entry — the audit log goes
from one entry to empty, so audit entries are deleted after creation,
contrary to the claim. -/
theorem C10_audit_append_only_cex :
    dbDel.auditLog = [⟨1, 2, "created", none, some Status.draft, "Expense created"⟩] ∧
    deleteExpense dbDel empU 1 =
      .ok { users := [empU, admU], expenses := [], auditLog := [], notifications := [],
            comments := [], ocrQueue := [] } := by
  exact ⟨rfl, rfl⟩

/-- C10 witness: all eight conjuncts instantiated on concrete stores. -/
theorem C10_audit_append_only_witness :
    (∃ t, (exceptStateD (submitExpense dbDraft empU 1 0 0) dbDraft).auditLog =
      dbDraft.auditLog ++ t) ∧
    (∃ t, (exceptStateD (approveExpense dbPending admU none 1 0) dbPending).auditLog =
      dbPending.auditLog ++ t) ∧
    (∃ t, (exceptStateD (rejectExpense dbPending admU "bad receipt" 1 0) dbPending).auditLog =
      dbPending.auditLog ++ t) ∧
    (∃ t, (exceptStateD (requestChangesExpense dbPending admU "add receipt" 1 0)
        dbPending).auditLog = dbPending.auditLog ++ t) ∧
    (∃ t, (exceptStateD (reimburseExpense dbApproved admU none 1 0) dbApproved).auditLog =
      dbApproved.auditLog ++ t) ∧
    (∃ t, (processReceiptOCR primsNone dbC2 1 "file://receipts/2/r.png"
        (Except.error "network timeout") 5).1.auditLog = dbC2.auditLog ++ t) ∧
    (∃ r t, feedbackLearningRun dbFb 1 "meals" (Except.ok ()) = .ok r ∧
      r.1.auditLog = dbFb.auditLog ++ t) ∧
    ((exceptStateD (deleteExpense dbDel empU 1) dbDel).auditLog =
      dbDel.auditLog.filter (fun a => decide (a.expenseId ≠ 1))) := by
  obtain ⟨h1, h2, h3, h4, h5, h6, h7, h8⟩ := C10_audit_append_only
  refine ⟨?_, ?_, ?_, ?_, ?_, ?_, ?_, ?_⟩
  · exact h1 dbDraft empU 1 0 0 _ rfl
  · exact h2 dbPending admU none 1 0 _ rfl
  · exact h3 dbPending admU "bad receipt" 1 0 _ rfl
  · exact h4 dbPending admU "add receipt" 1 0 _ rfl
  · exact h5 dbApproved admU none 1 0 _ rfl
  · exact h6 primsNone dbC2 1 "file://receipts/2/r.png" (Except.error "network timeout") 5
  · exact h7 dbFb 1 "meals" (Except.ok ())
  · exact h8 dbDel empU 1 _ rfl
